import Mathlib

/-!
# Verification of the Hyper language front end and evaluator

Shallow embedding of the Hyper programming language implementation
(lexer `src/lexer/lexer.c`, recursive-descent parser, and the two
runtime variants: the full tree-walking interpreter and the
expression-only runtime `src/runtime/hyp_runtime.c`), together with
theorems checking the behavioural claims of the specification.

Modelling conventions:
* C `double` is modelled by `HypNum`: an exact rational for the finite
  doubles that actually arise in these code paths, plus an explicit NaN
  (needed because truthiness and IEEE comparisons treat NaN specially).
  Overflow to infinity cannot arise in the verified paths.
* Heap pointers are modelled by natural-number allocation ids; `NULL`
  pointers by `Option.none`.
* C loops and recursion are driven by an explicit fuel parameter; fuel
  exhaustion returns the state unchanged and is an artifact of the
  embedding, never confused with a runtime error of the program.
* Memory deallocation (`free`, arena destruction) has no observable
  effect in the model and is dropped.
* `stdout` output of the built-in `print` is not modelled (no claim
  refers to it).
-/

namespace Hyper

/-- An exact rational represented as an unnormalized fraction
(numerator over a POSITIVE denominator; every constructor below and
every operation preserves denominator positivity).  Used to model the
finite C doubles that arise in the verified code paths exactly; value
comparisons go through cross-multiplication, so the representation's
lack of normalization is unobservable to the semantics. -/
structure Frac where
  num : Int
  den : Int
deriving DecidableEq, Repr

instance (n : Nat) : OfNat Frac n := ⟨⟨(n : Int), 1⟩⟩

/-- Model of a C `double` as used by the runtime: an exact rational
for finite values plus NaN.  The verified code paths guard divisions
by zero, so infinities never arise. -/
inductive HypNum where
  | finite (q : Frac)
  | nan
deriving DecidableEq, Repr

namespace HypNum

/-- IEEE `==` on doubles: NaN compares unequal to everything
(including itself); finite values compare by value
(cross-multiplication; in particular `-0.0 == 0.0`). -/
def ieeeEq : HypNum → HypNum → Bool
  | .finite x, .finite y => x.num * y.den == y.num * x.den
  | _, _ => false

/-- IEEE `<` on doubles: any comparison involving NaN is false. -/
def ieeeLt : HypNum → HypNum → Bool
  | .finite x, .finite y => x.num * y.den < y.num * x.den
  | _, _ => false

/-- IEEE `<=` on doubles: any comparison involving NaN is false. -/
def ieeeLe : HypNum → HypNum → Bool
  | .finite x, .finite y => x.num * y.den ≤ y.num * x.den
  | _, _ => false

/-- IEEE `>` on doubles. -/
def ieeeGt : HypNum → HypNum → Bool
  | .finite x, .finite y => y.num * x.den < x.num * y.den
  | _, _ => false

/-- IEEE `>=` on doubles. -/
def ieeeGe : HypNum → HypNum → Bool
  | .finite x, .finite y => y.num * x.den ≤ x.num * y.den
  | _, _ => false

/-- Addition; NaN propagates. -/
def add : HypNum → HypNum → HypNum
  | .finite x, .finite y =>
    .finite ⟨x.num * y.den + y.num * x.den, x.den * y.den⟩
  | _, _ => .nan

/-- Subtraction; NaN propagates. -/
def sub : HypNum → HypNum → HypNum
  | .finite x, .finite y =>
    .finite ⟨x.num * y.den - y.num * x.den, x.den * y.den⟩
  | _, _ => .nan

/-- Multiplication; NaN propagates. -/
def mul : HypNum → HypNum → HypNum
  | .finite x, .finite y => .finite ⟨x.num * y.num, x.den * y.den⟩
  | _, _ => .nan

/-- Division; only reached by the evaluator after its
`right.number == 0.0` guard, so the divisor's numerator is nonzero
(the sign is moved into the numerator to keep the denominator
positive). -/
def div : HypNum → HypNum → HypNum
  | .finite x, .finite y =>
    if y.num < 0 then .finite ⟨x.num * (-y.den), x.den * (-y.num)⟩
    else .finite ⟨x.num * y.den, x.den * y.num⟩
  | _, _ => .nan

/-- The C expression `x == 0.0` (IEEE): false for NaN, true for ±0.0. -/
def isZero : HypNum → Bool
  | .finite q => q.num == 0
  | .nan => false

/-- The C expression `x != 0.0 && !isnan(x)` used for truthiness of a
Number. -/
def isTruthyNum : HypNum → Bool
  | .finite q => q.num != 0
  | .nan => false

end HypNum

/-- `hyp_error_t` result codes (union of the codes used by the two
runtime variants). -/
inductive hyp_error where
  | HYP_OK
  | HYP_ERROR_NULL_POINTER
  | HYP_ERROR_INVALID_ARG
  | HYP_ERROR_RUNTIME
  | HYP_ERROR_OUT_OF_MEMORY
  | HYP_ERROR_INDEX_OUT_OF_BOUNDS
  | HYP_ERROR_NOT_IMPLEMENTED
deriving DecidableEq, Repr

/-! ## The runtime variant of `src/src/runtime/hyp_runtime.c`

Values carry tagged payloads; strings are a nullable pointer to a
`hyp_string_t` (modelled as an allocation id plus the character
content); arrays, objects, functions and native functions are plain
pointers (modelled as allocation ids). -/

namespace RuntimeC

/-- A `hyp_string_t*`: allocation identity plus character content. -/
structure HString where
  id : Nat
  chars : String
deriving DecidableEq, Repr

/-- The `hyp_value_type_t` tag enumeration. -/
inductive hyp_value_type where
  | HYP_VALUE_NULL
  | HYP_VALUE_BOOLEAN
  | HYP_VALUE_NUMBER
  | HYP_VALUE_STRING
  | HYP_VALUE_ARRAY
  | HYP_VALUE_OBJECT
  | HYP_VALUE_FUNCTION
  | HYP_VALUE_NATIVE_FUNCTION
deriving DecidableEq, Repr

/-- A `hyp_value_t`: tag plus payload.  Reference kinds hold the
pointer (allocation id) to the backing allocation. -/
inductive hyp_value where
  | vnull
  | boolean (b : Bool)
  | number (n : HypNum)
  | string (s : Option HString)
  | array (ref : Nat)
  | object (ref : Nat)
  | function (ref : Nat)
  | native_function (ref : Nat)
deriving DecidableEq, Repr

/-- The tag of a value (`value.type`). -/
def typeOf : hyp_value → hyp_value_type
  | .vnull => .HYP_VALUE_NULL
  | .boolean _ => .HYP_VALUE_BOOLEAN
  | .number _ => .HYP_VALUE_NUMBER
  | .string _ => .HYP_VALUE_STRING
  | .array _ => .HYP_VALUE_ARRAY
  | .object _ => .HYP_VALUE_OBJECT
  | .function _ => .HYP_VALUE_FUNCTION
  | .native_function _ => .HYP_VALUE_NATIVE_FUNCTION

/-- `hyp_value_equals`: different tags compare false; Null≡Null;
booleans and numbers by value (IEEE for numbers); strings by pointer
equality or, for two non-NULL pointers, by `strcmp` on the contents;
every other kind by pointer comparison (`a.as.object == b.as.object`). -/
def hyp_value_equals (a b : hyp_value) : Bool :=
  if typeOf a != typeOf b then false
  else
    match a, b with
    | .vnull, .vnull => true
    | .boolean x, .boolean y => x == y
    | .number x, .number y => HypNum.ieeeEq x y
    | .string x, .string y =>
      match x, y with
      | none, none => true
      | some s, some t => s.id == t.id || s.chars == t.chars
      | _, _ => false
    | .array x, .array y => x == y
    | .object x, .object y => x == y
    | .function x, .function y => x == y
    | .native_function x, .native_function y => x == y
    | _, _ => false

/-- `hyp_value_is_truthy`: Null false; Boolean itself; Number by
`!= 0.0 && !isnan`; String by non-NULL and positive length; objects,
arrays and functions always true. -/
def hyp_value_is_truthy : hyp_value → Bool
  | .vnull => false
  | .boolean b => b
  | .number n => HypNum.isTruthyNum n
  | .string s =>
    match s with
    | some t => decide (0 < t.chars.length)
    | none => false
  | _ => true

/-! Environments of this variant: each frame stores its variables in a
`hyp_object_t` (an ordered property list with linear lookup); the
parent link forms a linear chain, modelled as the tail of a list of
frames (`[]` models a `NULL` environment pointer). -/

/-- The property list of a `hyp_object_t` (keys compared by `strcmp`). -/
def Props := List (String × hyp_value)

/-- `hyp_object_get`: first matching key, else Null. -/
def hyp_object_get : List (String × hyp_value) → String → hyp_value
  | [], _ => .vnull
  | (k, v) :: rest, key => if k = key then v else hyp_object_get rest key

/-- `hyp_object_set`: overwrite the first matching key, else append a
new property at the end. -/
def hyp_object_set : List (String × hyp_value) → String → hyp_value →
    List (String × hyp_value)
  | [], key, value => [(key, value)]
  | (k, v) :: rest, key, value =>
    if k = key then (k, value) :: rest
    else (k, v) :: hyp_object_set rest key value

/-- `hyp_environment_get`: look the name up in the current frame via
`hyp_object_get`; if the stored value has tag `HYP_VALUE_NULL` and a
parent exists, fall through to the parent chain. -/
def hyp_environment_get : List (List (String × hyp_value)) → String → hyp_value
  | [], _ => .vnull
  | vars :: parent, name =>
    match hyp_object_get vars name with
    | .vnull =>
      match parent with
      | [] => .vnull
      | p :: ps => hyp_environment_get (p :: ps) name
    | v => v

/-- `hyp_environment_assign`: if the current frame's stored value for
the name is non-Null, overwrite it there; otherwise walk to the
parent; if no parent remains, define the name in the current frame
(`hyp_environment_define` is `hyp_object_set` on the frame). -/
def hyp_environment_assign :
    List (List (String × hyp_value)) → String → hyp_value →
    hyp_error × List (List (String × hyp_value))
  | [], _, _ => (.HYP_ERROR_NULL_POINTER, [])
  | vars :: parent, name, value =>
    match hyp_object_get vars name with
    | .vnull =>
      match parent with
      | [] => (.HYP_OK, [hyp_object_set vars name value])
      | p :: ps =>
        let r := hyp_environment_assign (p :: ps) name value
        (r.1, vars :: r.2)
    | _ => (.HYP_OK, hyp_object_set vars name value :: parent)

end RuntimeC

/-! ## The lexer of `src/src/lexer/lexer.c`

Source text is a `List Char` scanned through an index; dereferencing
past the end yields `'\0'` exactly as reading the C string's
terminator does (the source is assumed to contain no embedded NUL).
Loops take an explicit fuel argument. -/

namespace Lexer

/-- The `hyp_token_type_t` enumeration (the variant used by
`lexer.c`, prefix `HYP_TOKEN_` dropped). -/
inductive TokenType where
  | LET | CONST | FN | IF | ELSE | WHILE | FOR | IN | RETURN
  | BREAK | CONTINUE | MATCH | CASE | DEFAULT | STRUCT | ENUM
  | IMPORT | EXPORT | MODULE | TRUE | FALSE | NULL | AND | OR | NOT
  | ASYNC | AWAIT | TRY | CATCH | FINALLY | THROW | STATE
  | IDENTIFIER | NUMBER | STRING
  | LEFT_PAREN | RIGHT_PAREN | LEFT_BRACE | RIGHT_BRACE
  | LEFT_BRACKET | RIGHT_BRACKET | COMMA | DOT | SEMICOLON | COLON
  | QUESTION | TILDE
  | BANG | BANG_EQUAL | EQUAL | EQUAL_EQUAL | ARROW
  | LESS | LESS_EQUAL | LEFT_SHIFT | GREATER | GREATER_EQUAL
  | RIGHT_SHIFT
  | PLUS | PLUS_EQUAL | PLUS_PLUS | MINUS | MINUS_EQUAL | MINUS_MINUS
  | STAR | STAR_EQUAL | STAR_STAR | SLASH | SLASH_EQUAL
  | PERCENT | PERCENT_EQUAL
  | AMPERSAND | AND_AND | AND_EQUAL | PIPE | OR_OR | OR_EQUAL
  | CARET | XOR_EQUAL
  | JSX_OPEN_TAG | JSX_CLOSE_TAG | JSX_SELF_CLOSE | JSX_END_TAG
  | JSX_EXPRESSION | JSX_TEXT | JSX_ATTRIBUTE
  | EOF | ERROR
deriving DecidableEq, Repr

/-- A token: kind, the source slice it covers (or the message, for an
error token), and the position recorded by `make_token`. -/
structure Token where
  type : TokenType
  text : String
  line : Nat
  column : Nat
deriving DecidableEq, Repr

/-- The mutable lexer state (`hyp_lexer_t` fields used by scanning). -/
structure LexState where
  source : List Char
  current : Nat
  line : Nat
  column : Nat
  start : Nat
  jsx_depth : Int
  in_jsx : Bool
deriving Repr

/-- `hyp_lexer_create`. -/
def hyp_lexer_create (source : List Char) : LexState :=
  { source := source, current := 0, line := 1, column := 1,
    start := 0, jsx_depth := 0, in_jsx := false }

/-- `isdigit` (C locale, as applied to source characters). -/
def isdigit (c : Char) : Bool := 48 ≤ c.toNat && c.toNat ≤ 57

/-- `isalpha` (C locale, as applied to source characters). -/
def isalpha (c : Char) : Bool :=
  (65 ≤ c.toNat && c.toNat ≤ 90) || (97 ≤ c.toNat && c.toNat ≤ 122)

/-- `isalnum` (C locale, as applied to source characters). -/
def isalnum (c : Char) : Bool := isalpha c || isdigit c

/-- Dereference the scan pointer; past the end this reads the
terminating NUL. -/
def peek (lx : LexState) : Char := lx.source.getD lx.current (Char.ofNat 0)

/-- `is_at_end`: `*lexer->current == '\0'`. -/
def is_at_end (lx : LexState) : Bool := peek lx == Char.ofNat 0

/-- `peek_next`. -/
def peek_next (lx : LexState) : Char :=
  if is_at_end lx then Char.ofNat 0
  else lx.source.getD (lx.current + 1) (Char.ofNat 0)

/-- `advance`: consume one character, maintaining line/column. -/
def advance (lx : LexState) : Char × LexState :=
  if is_at_end lx then (Char.ofNat 0, lx)
  else
    let c := peek lx
    let lx := { lx with current := lx.current + 1 }
    if c == '\n' then (c, { lx with line := lx.line + 1, column := 1 })
    else (c, { lx with column := lx.column + 1 })

/-- `match`: conditionally consume an expected character. -/
def matchChar (lx : LexState) (expected : Char) : Bool × LexState :=
  if is_at_end lx then (false, lx)
  else if peek lx != expected then (false, lx)
  else (true, (advance lx).2)

/-- `make_token`: kind plus the slice from `start` to `current`;
the recorded column is `lexer->column - length`. -/
def make_token (lx : LexState) (type : TokenType) : Token :=
  let length := lx.current - lx.start
  { type := type,
    text := String.mk ((lx.source.drop lx.start).take length),
    line := lx.line,
    column := lx.column - length }

/-- `error_token`: the token text is the diagnostic message. -/
def error_token (lx : LexState) (message : String) : Token :=
  { type := .ERROR, text := message, line := lx.line, column := lx.column }

/-- The line-comment loop inside `skip_whitespace`. -/
def skipLineComment : Nat → LexState → LexState
  | 0, lx => lx
  | f+1, lx =>
    if peek lx != '\n' && !is_at_end lx then
      skipLineComment f (advance lx).2
    else lx

/-- The block-comment loop inside `skip_whitespace`. -/
def skipBlockComment : Nat → LexState → LexState
  | 0, lx => lx
  | f+1, lx =>
    if !is_at_end lx then
      if peek lx == '*' && peek_next lx == '/' then
        (advance (advance lx).2).2
      else skipBlockComment f (advance lx).2
    else lx

/-- `skip_whitespace`: spaces, tabs, carriage returns, newlines and
both comment forms. -/
def skip_whitespace : Nat → LexState → LexState
  | 0, lx => lx
  | f+1, lx =>
    let c := peek lx
    if c == ' ' || c == '\r' || c == '\t' then
      skip_whitespace f (advance lx).2
    else if c == '\n' then
      skip_whitespace f (advance lx).2
    else if c == '/' then
      if peek_next lx == '/' then
        skip_whitespace f (skipLineComment f lx)
      else if peek_next lx == '*' then
        skip_whitespace f (skipBlockComment f (advance (advance lx).2).2)
      else lx
    else lx

/-- The scanning loop of `scan_string` up to the closing quote. -/
def stringBody : Nat → LexState → Char → LexState
  | 0, lx, _ => lx
  | f+1, lx, quote =>
    if peek lx != quote && !is_at_end lx then
      if peek lx == '\\' then
        let lx := (advance lx).2
        let lx := if !is_at_end lx then (advance lx).2 else lx
        stringBody f lx quote
      else stringBody f (advance lx).2 quote
    else lx

/-- `scan_string`. -/
def scan_string (f : Nat) (lx : LexState) (quote : Char) : Token × LexState :=
  let lx := stringBody f lx quote
  if is_at_end lx then (error_token lx "Unterminated string", lx)
  else
    let lx := (advance lx).2
    (make_token lx .STRING, lx)

/-- A `while (isdigit(peek(lexer))) advance(lexer);` loop. -/
def skipDigits : Nat → LexState → LexState
  | 0, lx => lx
  | f+1, lx =>
    if isdigit (peek lx) then skipDigits f (advance lx).2 else lx

/-- `scan_number`: digits, optional fraction (only if a digit follows
the dot), optional exponent with optional sign. -/
def scan_number (f : Nat) (lx : LexState) : Token × LexState :=
  let lx := skipDigits f lx
  let lx :=
    if peek lx == '.' && isdigit (peek_next lx) then
      skipDigits f (advance lx).2
    else lx
  let lx :=
    if peek lx == 'e' || peek lx == 'E' then
      let lx := (advance lx).2
      let lx :=
        if peek lx == '+' || peek lx == '-' then (advance lx).2 else lx
      skipDigits f lx
    else lx
  (make_token lx .NUMBER, lx)

/-- The keyword lookup table of `lexer.c`, in source order. -/
def keywords : List (String × TokenType) :=
  [("let", .LET), ("const", .CONST), ("fn", .FN), ("if", .IF),
   ("else", .ELSE), ("while", .WHILE), ("for", .FOR), ("in", .IN),
   ("return", .RETURN), ("break", .BREAK), ("continue", .CONTINUE),
   ("match", .MATCH), ("case", .CASE), ("default", .DEFAULT),
   ("struct", .STRUCT), ("enum", .ENUM), ("import", .IMPORT),
   ("export", .EXPORT), ("module", .MODULE), ("true", .TRUE),
   ("false", .FALSE), ("null", .NULL), ("and", .AND), ("or", .OR),
   ("not", .NOT), ("async", .ASYNC), ("await", .AWAIT), ("try", .TRY),
   ("catch", .CATCH), ("finally", .FINALLY), ("throw", .THROW),
   ("state", .STATE)]

/-- `check_keyword`: linear scan of the keyword table comparing the
identifier text exactly; misses classify as IDENTIFIER. -/
def check_keyword (text : String) : TokenType :=
  ((keywords.find? (fun kw => kw.1 == text)).map (fun kw => kw.2)).getD
    .IDENTIFIER

/-- The identifier-body loop. -/
def identBody : Nat → LexState → LexState
  | 0, lx => lx
  | f+1, lx =>
    if isalnum (peek lx) || peek lx == '_' then identBody f (advance lx).2
    else lx

/-- `scan_identifier`: scan the body, then reclassify via the keyword
table. -/
def scan_identifier (f : Nat) (lx : LexState) : Token × LexState :=
  let lx := identBody f lx
  let type := check_keyword
    (String.mk ((lx.source.drop lx.start).take (lx.current - lx.start)))
  (make_token lx type, lx)

/-- The JSX identifier-body loop (also allows `-`). -/
def jsxIdentBody : Nat → LexState → LexState
  | 0, lx => lx
  | f+1, lx =>
    if isalnum (peek lx) || peek lx == '_' || peek lx == '-' then
      jsxIdentBody f (advance lx).2
    else lx

/-- `scan_jsx_identifier`. -/
def scan_jsx_identifier (f : Nat) (lx : LexState) : Token × LexState :=
  let lx := jsxIdentBody f lx
  (make_token lx .JSX_ATTRIBUTE, lx)

/-- The loop of `scan_jsx_text` (note: it bumps `line` itself on a
newline in addition to `advance` doing so, as the C code does). -/
def jsxTextBody : Nat → LexState → LexState
  | 0, lx => lx
  | f+1, lx =>
    if !is_at_end lx && peek lx != '<' && peek lx != '{' then
      let lx := if peek lx == '\n' then { lx with line := lx.line + 1 } else lx
      jsxTextBody f (advance lx).2
    else lx

/-- `scan_jsx_text`. -/
def scan_jsx_text (f : Nat) (lx : LexState) : Token × LexState :=
  let lx := jsxTextBody f lx
  (make_token lx .JSX_TEXT, lx)

/-- The brace-balancing loop of `scan_jsx_expression`. -/
def jsxExprBody : Nat → LexState → Int → LexState
  | 0, lx, _ => lx
  | f+1, lx, brace_count =>
    if !is_at_end lx && brace_count > 0 then
      let c := peek lx
      let brace_count :=
        if c == '{' then brace_count + 1
        else if c == '}' then brace_count - 1
        else brace_count
      let lx := if c == '\n' then { lx with line := lx.line + 1 } else lx
      jsxExprBody f (advance lx).2 brace_count
    else lx

/-- `scan_jsx_expression` (the opening brace was already consumed by
the dispatcher; the function consumes one further character first, as
the C code does). -/
def scan_jsx_expression (f : Nat) (lx : LexState) : Token × LexState :=
  let lx := (advance lx).2
  let lx := jsxExprBody f lx 1
  (make_token lx .JSX_EXPRESSION, lx)

/-- `hyp_lexer_scan_token`: skip whitespace, then dispatch on the
first character (identifiers/keywords, numbers, strings, one- and
two-character operators, JSX sub-mode, error token otherwise). -/
def hyp_lexer_scan_token (f : Nat) (lx : LexState) : Token × LexState :=
  let lx := skip_whitespace f lx
  let lx := { lx with start := lx.current }
  if is_at_end lx then (make_token lx .EOF, lx)
  else
    let (c, lx) := advance lx
    if lx.in_jsx && !isalpha c && c != '<' && c != '{' && c != '}' &&
        c != '>' && c != '/' then
      scan_jsx_text f lx
    else if isalpha c || c == '_' then
      if lx.in_jsx then scan_jsx_identifier f lx else scan_identifier f lx
    else if isdigit c then
      scan_number f lx
    else
      match c with
      | '(' => (make_token lx .LEFT_PAREN, lx)
      | ')' => (make_token lx .RIGHT_PAREN, lx)
      | '{' =>
        if lx.in_jsx then scan_jsx_expression f lx
        else (make_token lx .LEFT_BRACE, lx)
      | '}' => (make_token lx .RIGHT_BRACE, lx)
      | '[' => (make_token lx .LEFT_BRACKET, lx)
      | ']' => (make_token lx .RIGHT_BRACKET, lx)
      | ',' => (make_token lx .COMMA, lx)
      | '.' => (make_token lx .DOT, lx)
      | ';' => (make_token lx .SEMICOLON, lx)
      | ':' => (make_token lx .COLON, lx)
      | '?' => (make_token lx .QUESTION, lx)
      | '~' => (make_token lx .TILDE, lx)
      | '"' => scan_string f lx '"'
      | '\'' => scan_string f lx '\''
      | '!' =>
        let (m, lx) := matchChar lx '='
        if m then (make_token lx .BANG_EQUAL, lx)
        else (make_token lx .BANG, lx)
      | '=' =>
        let (m, lx) := matchChar lx '='
        if m then (make_token lx .EQUAL_EQUAL, lx)
        else
          let (m, lx) := matchChar lx '>'
          if m then (make_token lx .ARROW, lx)
          else (make_token lx .EQUAL, lx)
      | '<' =>
        let (m, lx) := matchChar lx '='
        if m then (make_token lx .LESS_EQUAL, lx)
        else
          let (m, lx) := matchChar lx '<'
          if m then (make_token lx .LEFT_SHIFT, lx)
          else
            let (m, lx) := matchChar lx '/'
            if m then (make_token lx .JSX_END_TAG, lx)
            else if isalpha (peek lx) then
              let lx := { lx with in_jsx := true,
                                  jsx_depth := lx.jsx_depth + 1 }
              (make_token lx .JSX_OPEN_TAG, lx)
            else (make_token lx .LESS, lx)
      | '>' =>
        let (m, lx) := matchChar lx '='
        if m then (make_token lx .GREATER_EQUAL, lx)
        else
          let (m, lx) := matchChar lx '>'
          if m then (make_token lx .RIGHT_SHIFT, lx)
          else if lx.in_jsx then (make_token lx .JSX_CLOSE_TAG, lx)
          else (make_token lx .GREATER, lx)
      | '+' =>
        let (m, lx) := matchChar lx '='
        if m then (make_token lx .PLUS_EQUAL, lx)
        else
          let (m, lx) := matchChar lx '+'
          if m then (make_token lx .PLUS_PLUS, lx)
          else (make_token lx .PLUS, lx)
      | '-' =>
        let (m, lx) := matchChar lx '='
        if m then (make_token lx .MINUS_EQUAL, lx)
        else
          let (m, lx) := matchChar lx '-'
          if m then (make_token lx .MINUS_MINUS, lx)
          else (make_token lx .MINUS, lx)
      | '*' =>
        let (m, lx) := matchChar lx '='
        if m then (make_token lx .STAR_EQUAL, lx)
        else
          let (m, lx) := matchChar lx '*'
          if m then (make_token lx .STAR_STAR, lx)
          else (make_token lx .STAR, lx)
      | '/' =>
        let (m, lx) := matchChar lx '='
        if m then (make_token lx .SLASH_EQUAL, lx)
        else
          let (m, lx) := matchChar lx '>'
          if m && lx.in_jsx then
            let lx := { lx with jsx_depth := lx.jsx_depth - 1 }
            let lx :=
              if lx.jsx_depth == 0 then { lx with in_jsx := false } else lx
            (make_token lx .JSX_SELF_CLOSE, lx)
          else (make_token lx .SLASH, lx)
      | '%' =>
        let (m, lx) := matchChar lx '='
        if m then (make_token lx .PERCENT_EQUAL, lx)
        else (make_token lx .PERCENT, lx)
      | '&' =>
        let (m, lx) := matchChar lx '&'
        if m then (make_token lx .AND_AND, lx)
        else
          let (m, lx) := matchChar lx '='
          if m then (make_token lx .AND_EQUAL, lx)
          else (make_token lx .AMPERSAND, lx)
      | '|' =>
        let (m, lx) := matchChar lx '|'
        if m then (make_token lx .OR_OR, lx)
        else
          let (m, lx) := matchChar lx '='
          if m then (make_token lx .OR_EQUAL, lx)
          else (make_token lx .PIPE, lx)
      | '^' =>
        let (m, lx) := matchChar lx '='
        if m then (make_token lx .XOR_EQUAL, lx)
        else (make_token lx .CARET, lx)
      | _ => (error_token lx "Unexpected character", lx)

/-- Repeatedly call `hyp_lexer_scan_token` until an EOF token, and
collect the tokens produced (exactly how the in-repo callers drive
the lexer). -/
def scanTokens : Nat → LexState → List Token
  | 0, _ => []
  | f+1, lx =>
    let (t, lx1) := hyp_lexer_scan_token (f+1) lx
    if t.type == .EOF then [t] else t :: scanTokens f lx1

end Lexer

/-! ## The full tree-walking interpreter (the `src/unnamed/part_000`
runtime variant, headers in `src/include/hyp_runtime.h`)

Environments live in a heap (a list of frames indexed by allocation
order); `hyp_function_t` allocations live in a parallel function heap.
The runtime session holds the heap, the global/current environment
pointers and the error slot `has_error`/`error_message`. -/

namespace Runtime0

/-- `hyp_binary_op_t`. -/
inductive hyp_binary_op where
  | BINOP_ADD | BINOP_SUB | BINOP_MUL | BINOP_DIV | BINOP_MOD
  | BINOP_POW | BINOP_EQ | BINOP_NE | BINOP_LT | BINOP_LE | BINOP_GT
  | BINOP_GE | BINOP_AND | BINOP_OR | BINOP_BITWISE_AND
  | BINOP_BITWISE_OR | BINOP_BITWISE_XOR | BINOP_LEFT_SHIFT
  | BINOP_RIGHT_SHIFT | BINOP_PIPE
deriving DecidableEq, Repr

/-- The ordinal of a binary operator in the C enumeration (used by the
`"Unknown binary operator: %d"` diagnostic). -/
def binopCode : hyp_binary_op → Nat
  | .BINOP_ADD => 0 | .BINOP_SUB => 1 | .BINOP_MUL => 2 | .BINOP_DIV => 3
  | .BINOP_MOD => 4 | .BINOP_POW => 5 | .BINOP_EQ => 6 | .BINOP_NE => 7
  | .BINOP_LT => 8 | .BINOP_LE => 9 | .BINOP_GT => 10 | .BINOP_GE => 11
  | .BINOP_AND => 12 | .BINOP_OR => 13 | .BINOP_BITWISE_AND => 14
  | .BINOP_BITWISE_OR => 15 | .BINOP_BITWISE_XOR => 16
  | .BINOP_LEFT_SHIFT => 17 | .BINOP_RIGHT_SHIFT => 18 | .BINOP_PIPE => 19

/-- `hyp_unary_op_t`. -/
inductive hyp_unary_op where
  | UNOP_PLUS | UNOP_MINUS | UNOP_NOT | UNOP_BITWISE_NOT
  | UNOP_INCREMENT | UNOP_DECREMENT
deriving DecidableEq, Repr

/-- `hyp_assign_op_t`. -/
inductive hyp_assign_op where
  | ASSIGN_SIMPLE | ASSIGN_ADD | ASSIGN_SUB | ASSIGN_MUL | ASSIGN_DIV
deriving DecidableEq, Repr

/-- The `hyp_ast_node_t` tagged union (the node kinds referenced by
this runtime; `nullLit` is `AST_NULL`).  Parameters of a function
declaration are modelled by their names, the only field the runtime
reads.  A nullable `char*` string payload is an `Option String`. -/
inductive Ast where
  | number (value : HypNum)
  | string (value : Option String)
  | boolean (value : Bool)
  | nullLit
  | identifier (name : String)
  | binary_op (op : hyp_binary_op) (left : Ast) (right : Ast)
  | unary_op (op : hyp_unary_op) (operand : Ast)
  | assignment (op : hyp_assign_op) (target : Ast) (value : Ast)
  | call (callee : Ast) (arguments : List Ast)
  | expression_stmt (expression : Ast)
  | variable_decl (name : String) (is_const : Bool)
      (initializer : Option Ast)
  | function_decl (name : String) (parameters : List String) (body : Ast)
  | if_stmt (condition : Ast) (then_stmt : Ast) (else_stmt : Option Ast)
  | while_stmt (condition : Ast) (body : Ast)
  | return_stmt (value : Option Ast)
  | block_stmt (statements : List Ast)
  | program (statements : List Ast)
deriving Repr

/-- `hyp_value_type_t` of this variant. -/
inductive hyp_value_type where
  | HYP_VAL_NULL | HYP_VAL_BOOLEAN | HYP_VAL_NUMBER | HYP_VAL_STRING
  | HYP_VAL_ARRAY | HYP_VAL_OBJECT | HYP_VAL_FUNCTION
  | HYP_VAL_NATIVE_FUNCTION
deriving DecidableEq, Repr

/-- `hyp_value_t` of this variant.  Strings are modelled by content
(`hyp_value_string` always copies, so distinct-pointer-same-content
aliasing is unobservable through `strcmp`).  The inline array struct
is modelled by its buffer pointer (`elements`, an allocation id) and
its `count`; objects by their pointer and `count`; functions by an
index into the function heap; native functions by the name that
identifies the C function pointer.  This evaluator never constructs
arrays or objects, so their `count` fields are immutable here. -/
inductive Value where
  | vnull
  | boolean (b : Bool)
  | number (n : HypNum)
  | string (s : Option String)
  | array (elements : Nat) (count : Nat)
  | object (ref : Nat) (count : Nat)
  | function (ref : Nat)
  | native_function (name : String)
deriving DecidableEq, Repr

/-- The tag of a value. -/
def typeOf : Value → hyp_value_type
  | .vnull => .HYP_VAL_NULL
  | .boolean _ => .HYP_VAL_BOOLEAN
  | .number _ => .HYP_VAL_NUMBER
  | .string _ => .HYP_VAL_STRING
  | .array _ _ => .HYP_VAL_ARRAY
  | .object _ _ => .HYP_VAL_OBJECT
  | .function _ => .HYP_VAL_FUNCTION
  | .native_function _ => .HYP_VAL_NATIVE_FUNCTION

/-- `hyp_value_equals` (part_000 variant): tags first, then value
comparison for Null/Boolean/Number, pointer-or-`strcmp` for strings,
pointer comparison (through the union) for everything else. -/
def hyp_value_equals (a b : Value) : Bool :=
  if typeOf a != typeOf b then false
  else
    match a, b with
    | .vnull, .vnull => true
    | .boolean x, .boolean y => x == y
    | .number x, .number y => HypNum.ieeeEq x y
    | .string x, .string y =>
      match x, y with
      | none, none => true
      | some s, some t => s == t
      | _, _ => false
    | .array x _, .array y _ => x == y
    | .object x _, .object y _ => x == y
    | .function x, .function y => x == y
    | .native_function x, .native_function y => x == y
    | _, _ => false

/-- `hyp_value_is_truthy` (part_000 variant): Null false, Boolean
itself, Number `!= 0.0 && !isnan`, String non-NULL with `strlen > 0`,
everything else true. -/
def hyp_value_is_truthy : Value → Bool
  | .vnull => false
  | .boolean b => b
  | .number n => HypNum.isTruthyNum n
  | .string s =>
    match s with
    | some t => decide (0 < t.length)
    | none => false
  | _ => true

/-- `hyp_function_t`. -/
structure hyp_function where
  name : String
  parameters : List String
  body : Ast
  closure : Nat
deriving Repr

/-- An environment frame (`hyp_environment_t`): parallel name/value
arrays modelled as an association list, plus the parent pointer. -/
structure Frame where
  parent : Option Nat
  vars : List (String × Value)
deriving Repr

/-- The runtime session (`hyp_runtime_t` fields the evaluator uses). -/
structure Runtime where
  heap : List Frame
  global_env : Nat
  current_env : Nat
  funcs : List hyp_function
  has_error : Bool
  error_message : String
deriving Repr

/-- The error-site idiom `runtime->has_error = true;
snprintf(runtime->error_message, ..., msg)`: unconditionally sets the
flag and overwrites the message. -/
def setError (σ : Runtime) (msg : String) : Runtime :=
  { σ with has_error := true, error_message := msg }

/-- First-match lookup in a frame's variable list. -/
def varsLookup : List (String × Value) → String → Option Value
  | [], _ => none
  | (k, v) :: rest, name => if k = name then some v else varsLookup rest name

/-- The body of `hyp_environment_define` on a frame: overwrite the
first matching name, else append a new variable. -/
def varsDefine : List (String × Value) → String → Value →
    List (String × Value)
  | [], name, value => [(name, value)]
  | (k, v) :: rest, name, value =>
    if k = name then (k, value) :: rest
    else (k, v) :: varsDefine rest name value

/-- `hyp_environment_create`: allocate a fresh frame with the given
parent; returns the new heap and the frame's address. -/
def hyp_environment_create (heap : List Frame) (parent : Option Nat) :
    List Frame × Nat :=
  (heap ++ [{ parent := parent, vars := [] }], heap.length)

/-- `hyp_environment_define`: define (or overwrite) a variable in the
given frame.  A dangling address behaves like the C NULL check: no
effect. -/
def hyp_environment_define (heap : List Frame) (env : Nat) (name : String)
    (value : Value) : List Frame :=
  match heap.get? env with
  | none => heap
  | some fr => heap.set env { fr with vars := varsDefine fr.vars name value }

/-- `hyp_environment_get`: look up through the parent chain; a name
found in a frame returns its stored value (even Null); a name found
nowhere returns Null.  The fuel bounds the chain length (any fuel at
least `heap.length` suffices for the acyclic chains the runtime
builds). -/
def hyp_environment_get : Nat → List Frame → Nat → String → Value
  | 0, _, _, _ => .vnull
  | f+1, heap, env, name =>
    match heap.get? env with
    | none => .vnull
    | some fr =>
      match varsLookup fr.vars name with
      | some v => v
      | none =>
        match fr.parent with
        | some p => hyp_environment_get f heap p name
        | none => .vnull

/-- `hyp_environment_assign`: overwrite where the name is found along
the chain; if it is found nowhere, define it in the frame at the end
of the chain (the frame with no parent). -/
def hyp_environment_assign : Nat → List Frame → Nat → String → Value →
    hyp_error × List Frame
  | 0, heap, _, _, _ => (.HYP_ERROR_INVALID_ARG, heap)
  | f+1, heap, env, name, value =>
    match heap.get? env with
    | none => (.HYP_ERROR_INVALID_ARG, heap)
    | some fr =>
      if (varsLookup fr.vars name).isSome then
        (.HYP_OK, heap.set env { fr with vars := varsDefine fr.vars name value })
      else
        match fr.parent with
        | some p => hyp_environment_assign f heap p name value
        | none => (.HYP_OK, hyp_environment_define heap env name value)

/-- `builtin_print`: writes to stdout (not modelled) and returns Null. -/
def builtin_print (σ : Runtime) (args : List Value) : Runtime × Value :=
  let _ := args
  (σ, .vnull)

/-- `builtin_typeof`. -/
def builtin_typeof (σ : Runtime) (args : List Value) : Runtime × Value :=
  if args.length != 1 then
    (setError σ "typeof expects exactly 1 argument", .vnull)
  else
    let type_name :=
      match args.getD 0 .vnull with
      | .vnull => "null"
      | .boolean _ => "boolean"
      | .number _ => "number"
      | .string _ => "string"
      | .array _ _ => "array"
      | .object _ _ => "object"
      | .function _ => "function"
      | .native_function _ => "function"
    (σ, .string (some type_name))

/-- `builtin_len` (`strlen` of a NULL string pointer is undefined in
C; modelled as 0 — unreachable from the verified paths). -/
def builtin_len (σ : Runtime) (args : List Value) : Runtime × Value :=
  if args.length != 1 then
    (setError σ "len expects exactly 1 argument", .vnull)
  else
    match args.getD 0 .vnull with
    | .string s => (σ, .number (.finite ⟨((s.getD "").length : Int), 1⟩))
    | .array _ count => (σ, .number (.finite ⟨(count : Int), 1⟩))
    | .object _ count => (σ, .number (.finite ⟨(count : Int), 1⟩))
    | _ =>
      (setError σ "len can only be called on strings, arrays, or objects",
       .vnull)

/-- Dispatch of a native-function pointer by the name that identifies
it (the runtime only ever creates `print`, `typeof` and `len`). -/
def callNative (name : String) (σ : Runtime) (args : List Value) :
    Runtime × Value :=
  match name with
  | "print" => builtin_print σ args
  | "typeof" => builtin_typeof σ args
  | "len" => builtin_len σ args
  | _ => (σ, .vnull)

/-- `evaluate_literal`. -/
def evaluate_literal (σ : Runtime) (node : Ast) : Runtime × Value :=
  match node with
  | .nullLit => (σ, .vnull)
  | .boolean b => (σ, .boolean b)
  | .number n => (σ, .number n)
  | .string s => (σ, .string s)
  | _ => (setError σ "Unknown literal type", .vnull)

/-- Parameter binding loop of `hyp_runtime_call_function`:
`for (i = 0; i < param_count && i < arg_count; i++) define(...)`. -/
def bindParams (σ : Runtime) (pairs : List (String × Value)) : Runtime :=
  pairs.foldl
    (fun σ p =>
      { σ with heap := hyp_environment_define σ.heap σ.current_env p.1 p.2 })
    σ

mutual

/-- `hyp_runtime_eval_expression`: literals, identifiers, binary
operations and assignments; everything else is "Unsupported AST node
type for evaluation".  An assignment first rejects a non-identifier
target ("Invalid assignment target"), then evaluates the right-hand
side and assigns through the chain of the GLOBAL environment. -/
def hyp_runtime_eval_expression : Nat → Runtime → Ast → Runtime × Value
  | 0, σ, _ => (σ, .vnull)
  | f+1, σ, node =>
    match node with
    | .number _ => evaluate_literal σ node
    | .string _ => evaluate_literal σ node
    | .boolean _ => evaluate_literal σ node
    | .nullLit => evaluate_literal σ node
    | .identifier name =>
      (σ, hyp_environment_get σ.heap.length σ.heap σ.current_env name)
    | .binary_op op left right => evaluate_binary f σ op left right
    | .assignment _ target value =>
      match target with
      | .identifier tname =>
        let ev := hyp_runtime_eval_expression f σ value
        let as2 := hyp_environment_assign ev.1.heap.length ev.1.heap
          ev.1.global_env tname ev.2
        ({ ev.1 with heap := as2.2 }, ev.2)
      | _ => (setError σ "Invalid assignment target", .vnull)
    | _ => (setError σ "Unsupported AST node type for evaluation", .vnull)

/-- `evaluate_binary`: evaluates BOTH operands first (checking the
error flag after each), then dispatches on the operator.  Arithmetic
and relational operators require two Numbers; division by a zero
divisor is the distinct "Division by zero" error; `and`/`or` pick one
of the two already-computed operand values by truthiness of the left;
unsupported operators and operand types fall through to errors. -/
def evaluate_binary : Nat → Runtime → hyp_binary_op → Ast → Ast →
    Runtime × Value
  | 0, σ, _, _, _ => (σ, .vnull)
  | f+1, σ, op, left, right =>
    let el := hyp_runtime_eval_expression f σ left
    if el.1.has_error then (el.1, .vnull)
    else
      let er := hyp_runtime_eval_expression f el.1 right
      if er.1.has_error then (er.1, .vnull)
      else
        let σ2 := er.1
        let l := el.2
        let r := er.2
        match op with
        | .BINOP_ADD =>
          match l, r with
          | .number a, .number b => (σ2, .number (HypNum.add a b))
          | _, _ => (setError σ2 "Invalid operands for binary operator", .vnull)
        | .BINOP_SUB =>
          match l, r with
          | .number a, .number b => (σ2, .number (HypNum.sub a b))
          | _, _ => (setError σ2 "Invalid operands for binary operator", .vnull)
        | .BINOP_MUL =>
          match l, r with
          | .number a, .number b => (σ2, .number (HypNum.mul a b))
          | _, _ => (setError σ2 "Invalid operands for binary operator", .vnull)
        | .BINOP_DIV =>
          match l, r with
          | .number a, .number b =>
            if HypNum.isZero b then (setError σ2 "Division by zero", .vnull)
            else (σ2, .number (HypNum.div a b))
          | _, _ => (setError σ2 "Invalid operands for binary operator", .vnull)
        | .BINOP_EQ => (σ2, .boolean (hyp_value_equals l r))
        | .BINOP_NE => (σ2, .boolean (!hyp_value_equals l r))
        | .BINOP_LT =>
          match l, r with
          | .number a, .number b => (σ2, .boolean (HypNum.ieeeLt a b))
          | _, _ => (setError σ2 "Invalid operands for binary operator", .vnull)
        | .BINOP_LE =>
          match l, r with
          | .number a, .number b => (σ2, .boolean (HypNum.ieeeLe a b))
          | _, _ => (setError σ2 "Invalid operands for binary operator", .vnull)
        | .BINOP_GT =>
          match l, r with
          | .number a, .number b => (σ2, .boolean (HypNum.ieeeGt a b))
          | _, _ => (setError σ2 "Invalid operands for binary operator", .vnull)
        | .BINOP_GE =>
          match l, r with
          | .number a, .number b => (σ2, .boolean (HypNum.ieeeGe a b))
          | _, _ => (setError σ2 "Invalid operands for binary operator", .vnull)
        | .BINOP_AND =>
          if !hyp_value_is_truthy l then (σ2, l) else (σ2, r)
        | .BINOP_OR =>
          if hyp_value_is_truthy l then (σ2, l) else (σ2, r)
        | _ =>
          (setError σ2
            ("Unknown binary operator: " ++ toString (binopCode op)), .vnull)

/-- `execute_statement`: dispatch over statement kinds; program and
block run their statement lists breaking on error; `if` evaluates the
condition (without checking the error flag) and picks a branch by
truthiness; `while` iterates; `return` merely evaluates its value;
declarations define in the GLOBAL environment; other nodes fall back
to expression evaluation. -/
def execute_statement : Nat → Runtime → Ast → Runtime × Value
  | 0, σ, _ => (σ, .vnull)
  | f+1, σ, node =>
    match node with
    | .program stmts => execSeq f σ stmts .vnull
    | .function_decl name params body =>
      let func : hyp_function :=
        { name := name, parameters := params, body := body,
          closure := σ.current_env }
      let fref := σ.funcs.length
      let σ := { σ with funcs := σ.funcs ++ [func] }
      let func_value := Value.function fref
      let σ := { σ with
        heap := hyp_environment_define σ.heap σ.global_env name func_value }
      (σ, func_value)
    | .call callee arguments =>
      match callee with
      | .identifier cname =>
        match hyp_environment_get σ.heap.length σ.heap σ.global_env cname with
        | .native_function nname =>
          let ea := evalArgs f σ arguments
          callNative nname ea.1 ea.2
        | .function fref =>
          let ea := evalArgs f σ arguments
          match ea.1.funcs.get? fref with
          | some fn => hyp_runtime_call_function f ea.1 fn ea.2
          | none => (ea.1, .vnull)
        | _ =>
          (setError σ ("Function '" ++ cname ++ "' not found"), .vnull)
      | _ => (setError σ "Only simple function calls supported", .vnull)
    | .variable_decl name _ initializer =>
      let ev :=
        match initializer with
        | some ini => hyp_runtime_eval_expression f σ ini
        | none => (σ, Value.vnull)
      ({ ev.1 with
          heap := hyp_environment_define ev.1.heap ev.1.global_env name ev.2 },
       ev.2)
    | .if_stmt condition then_stmt else_stmt =>
      let ec := hyp_runtime_eval_expression f σ condition
      if hyp_value_is_truthy ec.2 then execute_statement f ec.1 then_stmt
      else
        match else_stmt with
        | some e => execute_statement f ec.1 e
        | none => (ec.1, .vnull)
    | .while_stmt condition body => execWhile f σ condition body .vnull
    | .return_stmt value =>
      match value with
      | some e => hyp_runtime_eval_expression f σ e
      | none => (σ, .vnull)
    | .block_stmt stmts => execSeq f σ stmts .vnull
    | .expression_stmt e => hyp_runtime_eval_expression f σ e
    | _ => hyp_runtime_eval_expression f σ node

/-- The statement loop shared by `AST_PROGRAM` and `AST_BLOCK_STMT`:
run each statement in order, remembering the last result; break (and
return that statement's result) as soon as the error flag is set. -/
def execSeq : Nat → Runtime → List Ast → Value → Runtime × Value
  | 0, σ, _, result => (σ, result)
  | _+1, σ, [], result => (σ, result)
  | f+1, σ, stmt :: rest, _ =>
    let es := execute_statement f σ stmt
    if es.1.has_error then es
    else execSeq f es.1 rest es.2

/-- The `AST_WHILE_STMT` loop: evaluate the condition, stop when it is
falsy (returning the last body result), otherwise run the body and
stop if the error flag is set. -/
def execWhile : Nat → Runtime → Ast → Ast → Value → Runtime × Value
  | 0, σ, _, _, result => (σ, result)
  | f+1, σ, condition, body, result =>
    let ec := hyp_runtime_eval_expression f σ condition
    if !hyp_value_is_truthy ec.2 then (ec.1, result)
    else
      let eb := execute_statement f ec.1 body
      if eb.1.has_error then eb
      else execWhile f eb.1 condition body eb.2

/-- The argument-evaluation loop of `AST_CALL` (no error check
between arguments, as in the C loop). -/
def evalArgs : Nat → Runtime → List Ast → Runtime × List Value
  | 0, σ, _ => (σ, [])
  | _+1, σ, [] => (σ, [])
  | f+1, σ, a :: rest =>
    let ev := hyp_runtime_eval_expression f σ a
    let er := evalArgs f ev.1 rest
    (er.1, ev.2 :: er.2)

/-- `hyp_runtime_call_function`: save the current environment, make a
fresh frame whose parent is the function's closure environment, bind
positional parameters (extra arguments ignored, missing parameters
unbound), execute the body, then restore the caller's current
environment (the C also frees the frame, which is unobservable). -/
def hyp_runtime_call_function : Nat → Runtime → hyp_function →
    List Value → Runtime × Value
  | 0, σ, _, _ => (σ, .vnull)
  | f+1, σ, function, args =>
    let prev_env := σ.current_env
    let created := hyp_environment_create σ.heap function.closure
    let σ1 := { σ with heap := created.1, current_env := created.2 }
    let σ2 := bindParams σ1 (function.parameters.zip args)
    let eb := execute_statement f σ2 function.body
    ({ eb.1 with current_env := prev_env }, eb.2)

end

/-- Whether an AST node is an `AST_IDENTIFIER` (the check guarding
assignment targets in `hyp_runtime_eval_expression`). -/
def isIdentifier : Ast → Bool
  | .identifier _ => true
  | _ => false

/-- The variable list produced by the parameter-binding loop of
`hyp_runtime_call_function` on the fresh call frame. -/
def paramVars (parameters : List String) (args : List Value) :
    List (String × Value) :=
  (parameters.zip args).foldl (fun vs p => varsDefine vs p.1 p.2) []

/-- The state in which `hyp_runtime_call_function` executes the
function body: fresh frame whose parent is the closure environment,
parameters bound to positional arguments. -/
def callEntryState (σ : Runtime) (function : hyp_function)
    (args : List Value) : Runtime :=
  let created := hyp_environment_create σ.heap function.closure
  bindParams { σ with heap := created.1, current_env := created.2 }
    (function.parameters.zip args)

/-- Whether a name is bound anywhere along an environment chain
(used to state that looking up an unbound name yields Null). -/
def chainHasName : Nat → List Frame → Nat → String → Bool
  | 0, _, _, _ => false
  | f+1, heap, idx, name =>
    match heap.get? idx with
    | none => false
    | some fr =>
      (varsLookup fr.vars name).isSome ||
        (match fr.parent with
         | some p => chainHasName f heap p name
         | none => false)

/-- `hyp_runtime_create`: global environment with the three built-ins
defined in source order; empty error slot. -/
def hyp_runtime_create : Runtime :=
  let heap0 : List Frame := [{ parent := none, vars := [] }]
  let heap1 := hyp_environment_define heap0 0 "print" (.native_function "print")
  let heap2 := hyp_environment_define heap1 0 "typeof" (.native_function "typeof")
  let heap3 := hyp_environment_define heap2 0 "len" (.native_function "len")
  { heap := heap3, global_env := 0, current_env := 0, funcs := [],
    has_error := false, error_message := "" }

/-- `hyp_runtime_execute_ast`: clear the flag, re-define `print`, run
the program, then call a declared `main` (if any) and map the error
flag to `HYP_ERROR_RUNTIME`. -/
def hyp_runtime_execute_ast (f : Nat) (σ : Runtime) (ast : Ast) :
    Runtime × hyp_error :=
  let σ := { σ with has_error := false }
  let σ := { σ with
    heap := hyp_environment_define σ.heap σ.global_env "print"
      (.native_function "print") }
  let es := execute_statement f σ ast
  let σ := es.1
  match hyp_environment_get σ.heap.length σ.heap σ.global_env "main" with
  | .function fref =>
    match σ.funcs.get? fref with
    | some fn =>
      let ec := hyp_runtime_call_function f σ fn []
      if ec.1.has_error then (ec.1, .HYP_ERROR_RUNTIME)
      else (ec.1, .HYP_OK)
    | none =>
      if σ.has_error then (σ, .HYP_ERROR_RUNTIME) else (σ, .HYP_OK)
  | _ =>
    if σ.has_error then (σ, .HYP_ERROR_RUNTIME) else (σ, .HYP_OK)

end Runtime0

/-! ## The recursive-descent parser (the `src/unnamed/part_006`
variant, consuming tokens from the `lexer.c` lexer)

AST child slots that can hold a C NULL pointer (a failed sub-parse)
are `Option`; node line/column fields are not modelled (nothing in
the verified paths reads them).  Arena allocation always succeeds in
the model. -/

namespace Parser6

/-- `hyp_literal_type_t` payloads (`HYP_LITERAL_*`). -/
inductive HLiteral where
  | lnull
  | lboolean (b : Bool)
  | lnumber (n : HypNum)
  | lstring (s : String)
deriving DecidableEq, Repr

/-- `hyp_binary_operator_t` (`HYP_BINARY_*`). -/
inductive HBinary where
  | ADD | SUBTRACT | MULTIPLY | DIVIDE | MODULO
  | EQUAL | NOT_EQUAL | LESS | LESS_EQUAL | GREATER | GREATER_EQUAL
  | AND | OR
deriving DecidableEq, Repr

/-- `hyp_unary_operator_t` (`HYP_UNARY_*`). -/
inductive HUnary where
  | NOT | NEGATE
deriving DecidableEq, Repr

/-- `hyp_assignment_operator_t` (`HYP_ASSIGN_*`). -/
inductive HAssign where
  | SIMPLE
deriving DecidableEq, Repr

/-- The `hyp_ast_node_t` union of this pipeline (`HYP_AST_*`). -/
inductive HAst where
  | literal (lit : HLiteral)
  | identifier (name : String)
  | binary (op : HBinary) (left : Option HAst) (right : Option HAst)
  | unary (op : HUnary) (operand : Option HAst)
  | assignment (op : HAssign) (target : Option HAst) (value : Option HAst)
  | call (callee : Option HAst) (arguments : List HAst)
  | member_access (object : Option HAst) (property : String)
  | index_access (object : Option HAst) (index : Option HAst)
  | array_literal (elements : List HAst)
  | object_literal (properties : List (String × Option HAst))
  | expression_stmt (expression : Option HAst)
  | block (statements : List HAst)
  | if_stmt (condition : Option HAst) (then_branch : Option HAst)
      (else_branch : Option HAst)
  | while_stmt (condition : Option HAst) (body : Option HAst)
  | return_stmt (value : Option HAst)
  | var_decl (name : String) (is_const : Bool) (initializer : Option HAst)
  | function (name : String) (parameters : List String) (body : Option HAst)
  | program (declarations : List HAst)
deriving Repr

/-- Whether a node is an `HYP_AST_ASSIGNMENT`. -/
def isAssignment : HAst → Bool
  | .assignment _ _ _ => true
  | _ => false

/-- Shape check for the parse result of `1 = 2;`: a one-statement
program whose statement is an expression statement holding a simple
assignment whose TARGET is the number literal 1 (not an identifier)
and whose value is the number literal 2. -/
def isLiteralTargetAssignmentProgram : Option HAst → Bool
  | some (.program [.expression_stmt (some (.assignment .SIMPLE
      (some (.literal (.lnumber n1)))
      (some (.literal (.lnumber n2)))))]) =>
    n1 == HypNum.finite 1 && n2 == HypNum.finite 2
  | _ => false

/-- `strtod` restricted to the number grammar produced by
`scan_number` (digits, optional `.`+digits, optional exponent with
optional sign), evaluated exactly over the rationals. -/
def strtod (s : String) : HypNum :=
  let digitsToNat : List Char → Nat :=
    fun cs => cs.foldl (fun a c => a * 10 + (c.toNat - 48)) 0
  let cs := s.data
  let ip := cs.takeWhile (fun c => Lexer.isdigit c)
  let rest := cs.drop ip.length
  let fracDigits :=
    match rest with
    | '.' :: t => t.takeWhile (fun c => Lexer.isdigit c)
    | _ => []
  let rest2 :=
    match rest with
    | '.' :: t => t.drop fracDigits.length
    | _ => rest
  let expPart : Bool × List Char :=
    match rest2 with
    | 'e' :: t =>
      match t with
      | '+' :: u => (false, u.takeWhile (fun c => Lexer.isdigit c))
      | '-' :: u => (true, u.takeWhile (fun c => Lexer.isdigit c))
      | _ => (false, t.takeWhile (fun c => Lexer.isdigit c))
    | 'E' :: t =>
      match t with
      | '+' :: u => (false, u.takeWhile (fun c => Lexer.isdigit c))
      | '-' :: u => (true, u.takeWhile (fun c => Lexer.isdigit c))
      | _ => (false, t.takeWhile (fun c => Lexer.isdigit c))
    | _ => (false, [])
  let num0 : Int :=
    (digitsToNat ip * 10 ^ fracDigits.length + digitsToNat fracDigits : Nat)
  let den0 : Int := ((10 ^ fracDigits.length : Nat) : Int)
  let e := digitsToNat expPart.2
  .finite
    (if expPart.1 then ⟨num0, den0 * (10 : Int) ^ e⟩
     else ⟨num0 * (10 : Int) ^ e, den0⟩)

/-- The string payload of a STRING token with the delimiting quotes
stripped (`copy_string(token.start + 1, token.length - 2)`). -/
def stripQuotes (s : String) : String :=
  String.mk ((s.data.drop 1).take (s.length - 2))

/-- The parser state (`hyp_parser_t`); diagnostics collect the
messages `error_at` writes to stderr. -/
structure PState where
  lexer : Lexer.LexState
  current : Lexer.Token
  previous : Lexer.Token
  had_error : Bool
  panic_mode : Bool
  diagnostics : List String
deriving Repr

/-- Stand-in for the uninitialized token fields of a freshly
`malloc`ed parser (never read before being overwritten). -/
def dummyToken : Lexer.Token :=
  { type := .ERROR, text := "", line := 0, column := 0 }

/-- `error_at`: suppressed while panicking; otherwise records the
diagnostic and sets `panic_mode` and `had_error`. -/
def error_at (p : PState) (token : Lexer.Token) (message : String) : PState :=
  if p.panic_mode then p
  else
    let _ := token
    { p with panic_mode := true, had_error := true,
             diagnostics := p.diagnostics ++ [message] }

/-- `error`: diagnostic at the previous token. -/
def errorP (p : PState) (message : String) : PState :=
  error_at p p.previous message

/-- `error_at_current`. -/
def error_at_current (p : PState) (message : String) : PState :=
  error_at p p.current message

/-- The token-fetch loop of `advance`: pull tokens, reporting and
skipping ERROR tokens (whose text is the message). -/
def advanceLoop : Nat → PState → PState
  | 0, p => p
  | f+1, p =>
    let scanned := Lexer.hyp_lexer_scan_token (f+1) p.lexer
    let p := { p with lexer := scanned.2, current := scanned.1 }
    if p.current.type != .ERROR then p
    else advanceLoop f (error_at_current p p.current.text)

/-- `advance`. -/
def advanceP (f : Nat) (p : PState) : PState :=
  advanceLoop f { p with previous := p.current }

/-- `check`. -/
def check (p : PState) (type : Lexer.TokenType) : Bool :=
  p.current.type == type

/-- `match`. -/
def matchP (f : Nat) (p : PState) (type : Lexer.TokenType) : Bool × PState :=
  if !check p type then (false, p) else (true, advanceP f p)

/-- `consume`. -/
def consume (f : Nat) (p : PState) (type : Lexer.TokenType)
    (message : String) : PState :=
  if p.current.type == type then advanceP f p
  else error_at_current p message

/-- The scan loop of `synchronize`. -/
def syncLoop : Nat → PState → PState
  | 0, p => p
  | f+1, p =>
    if p.current.type != .EOF then
      if p.previous.type == .SEMICOLON then p
      else
        match p.current.type with
        | .FN => p
        | .LET => p
        | .CONST => p
        | .IF => p
        | .WHILE => p
        | .FOR => p
        | .RETURN => p
        | _ => syncLoop f (advanceP f p)
    else p

/-- `synchronize`: leave panic mode, then discard tokens to a
statement boundary. -/
def synchronize (f : Nat) (p : PState) : PState :=
  syncLoop f { p with panic_mode := false }

mutual

/-- `parse_primary`: literals, identifiers, parenthesized
expressions, array literals, object literals, else "Expected
expression". -/
def parse_primary : Nat → PState → PState × Option HAst
  | 0, p => (p, none)
  | f+1, p =>
    let mt := matchP f p .TRUE
    if mt.1 then (mt.2, some (.literal (.lboolean true)))
    else
      let mf := matchP f p .FALSE
      if mf.1 then (mf.2, some (.literal (.lboolean false)))
      else
        let mn := matchP f p .NULL
        if mn.1 then (mn.2, some (.literal .lnull))
        else
          let mnum := matchP f p .NUMBER
          if mnum.1 then
            (mnum.2, some (.literal (.lnumber (strtod mnum.2.previous.text))))
          else
            let ms := matchP f p .STRING
            if ms.1 then
              (ms.2, some (.literal (.lstring (stripQuotes ms.2.previous.text))))
            else
              let mi := matchP f p .IDENTIFIER
              if mi.1 then (mi.2, some (.identifier mi.2.previous.text))
              else
                let mp := matchP f p .LEFT_PAREN
                if mp.1 then
                  let pe := parse_expression f mp.2
                  (consume f pe.1 .RIGHT_PAREN "Expected ')' after expression",
                   pe.2)
                else
                  let mb := matchP f p .LEFT_BRACKET
                  if mb.1 then
                    let inner :=
                      if !check mb.2 .RIGHT_BRACKET then
                        arrayElems f mb.2 []
                      else (mb.2, [])
                    (consume f inner.1 .RIGHT_BRACKET
                      "Expected ']' after array elements",
                     some (.array_literal inner.2))
                  else
                    let mo := matchP f p .LEFT_BRACE
                    if mo.1 then
                      let inner :=
                        if !check mo.2 .RIGHT_BRACE then
                          objectProps f mo.2 []
                        else (mo.2, [])
                      (consume f inner.1 .RIGHT_BRACE
                        "Expected '\x7d' after object properties",
                       some (.object_literal inner.2))
                    else (errorP p "Expected expression", none)

/-- The element do-while loop of an array literal. -/
def arrayElems : Nat → PState → List HAst → PState × List HAst
  | 0, p, acc => (p, acc)
  | f+1, p, acc =>
    let pe := parse_expression f p
    let acc :=
      match pe.2 with
      | some e => acc ++ [e]
      | none => acc
    let mc := matchP f pe.1 .COMMA
    if mc.1 then arrayElems f mc.2 acc else (mc.2, acc)

/-- The property do-while loop of an object literal (breaks on a
missing property name). -/
def objectProps : Nat → PState → List (String × Option HAst) →
    PState × List (String × Option HAst)
  | 0, p, acc => (p, acc)
  | f+1, p, acc =>
    let mi := matchP f p .IDENTIFIER
    let keyed : Option (PState × String) :=
      if mi.1 then some (mi.2, mi.2.previous.text)
      else
        let ms := matchP f mi.2 .STRING
        if ms.1 then some (ms.2, stripQuotes ms.2.previous.text)
        else none
    match keyed with
    | none => (errorP p "Expected property name", acc)
    | some pk =>
      let p := consume f pk.1 .COLON "Expected ':' after property name"
      let pv := parse_expression f p
      let acc := acc ++ [(pk.2, pv.2)]
      let mc := matchP f pv.1 .COMMA
      if mc.1 then objectProps f mc.2 acc else (mc.2, acc)

/-- The argument do-while loop of a call. -/
def callArgs : Nat → PState → List HAst → PState × List HAst
  | 0, p, acc => (p, acc)
  | f+1, p, acc =>
    let pa := parse_expression f p
    let acc :=
      match pa.2 with
      | some a => acc ++ [a]
      | none => acc
    let mc := matchP f pa.1 .COMMA
    if mc.1 then callArgs f mc.2 acc else (mc.2, acc)

/-- The postfix loop of `parse_call`: call, member access and index
access chains. -/
def callLoop : Nat → PState → Option HAst → PState × Option HAst
  | 0, p, expr => (p, expr)
  | f+1, p, expr =>
    let mp := matchP f p .LEFT_PAREN
    if mp.1 then
      let inner :=
        if !check mp.2 .RIGHT_PAREN then callArgs f mp.2 []
        else (mp.2, [])
      let p := consume f inner.1 .RIGHT_PAREN "Expected ')' after arguments"
      callLoop f p (some (.call expr inner.2))
    else
      let md := matchP f p .DOT
      if md.1 then
        let p := consume f md.2 .IDENTIFIER "Expected property name after '.'"
        callLoop f p (some (.member_access expr p.previous.text))
      else
        let mb := matchP f p .LEFT_BRACKET
        if mb.1 then
          let pi := parse_expression f mb.2
          let p := consume f pi.1 .RIGHT_BRACKET "Expected ']' after index"
          callLoop f p (some (.index_access expr pi.2))
        else (p, expr)

/-- `parse_call`. -/
def parse_call : Nat → PState → PState × Option HAst
  | 0, p => (p, none)
  | f+1, p =>
    let pe := parse_primary f p
    callLoop f pe.1 pe.2

/-- `parse_unary`: `!`, `-` and `not` prefixes. -/
def parse_unary : Nat → PState → PState × Option HAst
  | 0, p => (p, none)
  | f+1, p =>
    let mb := matchP f p .BANG
    if mb.1 then
      let po := parse_unary f mb.2
      (po.1, some (.unary .NOT po.2))
    else
      let mm := matchP f p .MINUS
      if mm.1 then
        let po := parse_unary f mm.2
        (po.1, some (.unary .NEGATE po.2))
      else
        let mn := matchP f p .NOT
        if mn.1 then
          let po := parse_unary f mn.2
          (po.1, some (.unary .NOT po.2))
        else parse_call f p

/-- The operator loop of `parse_factor` (`/`, `*`, `%`). -/
def factorLoop : Nat → PState → Option HAst → PState × Option HAst
  | 0, p, expr => (p, expr)
  | f+1, p, expr =>
    let ms := matchP f p .SLASH
    if ms.1 then
      let pr := parse_unary f ms.2
      factorLoop f pr.1 (some (.binary .DIVIDE expr pr.2))
    else
      let mm := matchP f p .STAR
      if mm.1 then
        let pr := parse_unary f mm.2
        factorLoop f pr.1 (some (.binary .MULTIPLY expr pr.2))
      else
        let mp := matchP f p .PERCENT
        if mp.1 then
          let pr := parse_unary f mp.2
          factorLoop f pr.1 (some (.binary .MODULO expr pr.2))
        else (p, expr)

/-- `parse_factor`. -/
def parse_factor : Nat → PState → PState × Option HAst
  | 0, p => (p, none)
  | f+1, p =>
    let pe := parse_unary f p
    factorLoop f pe.1 pe.2

/-- The operator loop of `parse_term` (`-`, `+`). -/
def termLoop : Nat → PState → Option HAst → PState × Option HAst
  | 0, p, expr => (p, expr)
  | f+1, p, expr =>
    let mm := matchP f p .MINUS
    if mm.1 then
      let pr := parse_factor f mm.2
      termLoop f pr.1 (some (.binary .SUBTRACT expr pr.2))
    else
      let mp := matchP f p .PLUS
      if mp.1 then
        let pr := parse_factor f mp.2
        termLoop f pr.1 (some (.binary .ADD expr pr.2))
      else (p, expr)

/-- `parse_term`. -/
def parse_term : Nat → PState → PState × Option HAst
  | 0, p => (p, none)
  | f+1, p =>
    let pe := parse_factor f p
    termLoop f pe.1 pe.2

/-- The operator loop of `parse_comparison`. -/
def comparisonLoop : Nat → PState → Option HAst → PState × Option HAst
  | 0, p, expr => (p, expr)
  | f+1, p, expr =>
    let mg := matchP f p .GREATER
    if mg.1 then
      let pr := parse_term f mg.2
      comparisonLoop f pr.1 (some (.binary .GREATER expr pr.2))
    else
      let mge := matchP f p .GREATER_EQUAL
      if mge.1 then
        let pr := parse_term f mge.2
        comparisonLoop f pr.1 (some (.binary .GREATER_EQUAL expr pr.2))
      else
        let ml := matchP f p .LESS
        if ml.1 then
          let pr := parse_term f ml.2
          comparisonLoop f pr.1 (some (.binary .LESS expr pr.2))
        else
          let mle := matchP f p .LESS_EQUAL
          if mle.1 then
            let pr := parse_term f mle.2
            comparisonLoop f pr.1 (some (.binary .LESS_EQUAL expr pr.2))
          else (p, expr)

/-- `parse_comparison`. -/
def parse_comparison : Nat → PState → PState × Option HAst
  | 0, p => (p, none)
  | f+1, p =>
    let pe := parse_term f p
    comparisonLoop f pe.1 pe.2

/-- The operator loop of `parse_equality` (`!=`, `==`). -/
def equalityLoop : Nat → PState → Option HAst → PState × Option HAst
  | 0, p, expr => (p, expr)
  | f+1, p, expr =>
    let mn := matchP f p .BANG_EQUAL
    if mn.1 then
      let pr := parse_comparison f mn.2
      equalityLoop f pr.1 (some (.binary .NOT_EQUAL expr pr.2))
    else
      let me := matchP f p .EQUAL_EQUAL
      if me.1 then
        let pr := parse_comparison f me.2
        equalityLoop f pr.1 (some (.binary .EQUAL expr pr.2))
      else (p, expr)

/-- `parse_equality`. -/
def parse_equality : Nat → PState → PState × Option HAst
  | 0, p => (p, none)
  | f+1, p =>
    let pe := parse_comparison f p
    equalityLoop f pe.1 pe.2

/-- The operator loop of `parse_logical_and` (`and`, `&&`). -/
def logicalAndLoop : Nat → PState → Option HAst → PState × Option HAst
  | 0, p, expr => (p, expr)
  | f+1, p, expr =>
    let ma := matchP f p .AND
    if ma.1 then
      let pr := parse_equality f ma.2
      logicalAndLoop f pr.1 (some (.binary .AND expr pr.2))
    else
      let maa := matchP f p .AND_AND
      if maa.1 then
        let pr := parse_equality f maa.2
        logicalAndLoop f pr.1 (some (.binary .AND expr pr.2))
      else (p, expr)

/-- `parse_logical_and`. -/
def parse_logical_and : Nat → PState → PState × Option HAst
  | 0, p => (p, none)
  | f+1, p =>
    let pe := parse_equality f p
    logicalAndLoop f pe.1 pe.2

/-- The operator loop of `parse_logical_or` (`or`, `||`). -/
def logicalOrLoop : Nat → PState → Option HAst → PState × Option HAst
  | 0, p, expr => (p, expr)
  | f+1, p, expr =>
    let mo := matchP f p .OR
    if mo.1 then
      let pr := parse_logical_and f mo.2
      logicalOrLoop f pr.1 (some (.binary .OR expr pr.2))
    else
      let moo := matchP f p .OR_OR
      if moo.1 then
        let pr := parse_logical_and f moo.2
        logicalOrLoop f pr.1 (some (.binary .OR expr pr.2))
      else (p, expr)

/-- `parse_logical_or`. -/
def parse_logical_or : Nat → PState → PState × Option HAst
  | 0, p => (p, none)
  | f+1, p =>
    let pe := parse_logical_and f p
    logicalOrLoop f pe.1 pe.2

/-- `parse_assignment`: parse the left side at logical-or level; on a
`=` wrap it, WHATEVER node kind it is, as the assignment target and
recurse for the right-associative value. -/
def parse_assignment : Nat → PState → PState × Option HAst
  | 0, p => (p, none)
  | f+1, p =>
    let pe := parse_logical_or f p
    let me := matchP f pe.1 .EQUAL
    if me.1 then
      let pv := parse_assignment f me.2
      (pv.1, some (.assignment .SIMPLE pe.2 pv.2))
    else (me.2, pe.2)

/-- `parse_expression`. -/
def parse_expression : Nat → PState → PState × Option HAst
  | 0, p => (p, none)
  | f+1, p => parse_assignment f p

end

mutual

/-- `parse_expression_statement`. -/
def parse_expression_statement : Nat → PState → PState × Option HAst
  | 0, p => (p, none)
  | f+1, p =>
    let pe := parse_expression f p
    (consume f pe.1 .SEMICOLON "Expected ';' after expression",
     some (.expression_stmt pe.2))

/-- The statement loop of `parse_block_statement`. -/
def blockStmts : Nat → PState → List HAst → PState × List HAst
  | 0, p, acc => (p, acc)
  | f+1, p, acc =>
    if !check p .RIGHT_BRACE && !check p .EOF then
      let ps := parse_declaration f p
      let acc :=
        match ps.2 with
        | some s => acc ++ [s]
        | none => acc
      blockStmts f ps.1 acc
    else (p, acc)

/-- `parse_block_statement`. -/
def parse_block_statement : Nat → PState → PState × Option HAst
  | 0, p => (p, none)
  | f+1, p =>
    let inner := blockStmts f p []
    (consume f inner.1 .RIGHT_BRACE "Expected '\x7d' after block",
     some (.block inner.2))

/-- `parse_if_statement` (the IF token is already consumed). -/
def parse_if_statement : Nat → PState → PState × Option HAst
  | 0, p => (p, none)
  | f+1, p =>
    let p := consume f p .LEFT_PAREN "Expected '(' after 'if'"
    let pc := parse_expression f p
    let p := consume f pc.1 .RIGHT_PAREN "Expected ')' after if condition"
    let pt := parse_statement f p
    let me := matchP f pt.1 .ELSE
    if me.1 then
      let pe := parse_statement f me.2
      (pe.1, some (.if_stmt pc.2 pt.2 pe.2))
    else (me.2, some (.if_stmt pc.2 pt.2 none))

/-- `parse_while_statement`. -/
def parse_while_statement : Nat → PState → PState × Option HAst
  | 0, p => (p, none)
  | f+1, p =>
    let p := consume f p .LEFT_PAREN "Expected '(' after 'while'"
    let pc := parse_expression f p
    let p := consume f pc.1 .RIGHT_PAREN "Expected ')' after while condition"
    let pb := parse_statement f p
    (pb.1, some (.while_stmt pc.2 pb.2))

/-- `parse_return_statement`. -/
def parse_return_statement : Nat → PState → PState × Option HAst
  | 0, p => (p, none)
  | f+1, p =>
    let pv :=
      if !check p .SEMICOLON then parse_expression f p
      else (p, none)
    (consume f pv.1 .SEMICOLON "Expected ';' after return value",
     some (.return_stmt pv.2))

/-- `parse_statement`. -/
def parse_statement : Nat → PState → PState × Option HAst
  | 0, p => (p, none)
  | f+1, p =>
    let mi := matchP f p .IF
    if mi.1 then parse_if_statement f mi.2
    else
      let mw := matchP f p .WHILE
      if mw.1 then parse_while_statement f mw.2
      else
        let mr := matchP f p .RETURN
        if mr.1 then parse_return_statement f mr.2
        else
          let mb := matchP f p .LEFT_BRACE
          if mb.1 then parse_block_statement f mb.2
          else parse_expression_statement f p

/-- `parse_variable_declaration`. -/
def parse_variable_declaration (is_const : Bool) :
    Nat → PState → PState × Option HAst
  | 0, p => (p, none)
  | f+1, p =>
    let p := consume f p .IDENTIFIER "Expected variable name"
    let name := p.previous.text
    let me := matchP f p .EQUAL
    let withInit : PState × Option HAst :=
      if me.1 then parse_expression f me.2
      else (me.2, none)
    (consume f withInit.1 .SEMICOLON
      "Expected ';' after variable declaration",
     some (.var_decl name is_const withInit.2))

/-- The parameter do-while loop of a function declaration. -/
def paramList : Nat → PState → List String → PState × List String
  | 0, p, acc => (p, acc)
  | f+1, p, acc =>
    let p := consume f p .IDENTIFIER "Expected parameter name"
    let acc := acc ++ [p.previous.text]
    let mc := matchP f p .COMMA
    if mc.1 then paramList f mc.2 acc else (mc.2, acc)

/-- `parse_function_declaration`. -/
def parse_function_declaration : Nat → PState → PState × Option HAst
  | 0, p => (p, none)
  | f+1, p =>
    let p := consume f p .IDENTIFIER "Expected function name"
    let name := p.previous.text
    let p := consume f p .LEFT_PAREN "Expected '(' after function name"
    let params :=
      if !check p .RIGHT_PAREN then paramList f p []
      else (p, [])
    let p := consume f params.1 .RIGHT_PAREN "Expected ')' after parameters"
    let p := consume f p .LEFT_BRACE "Expected '\x7b' before function body"
    let pb := parse_block_statement f p
    (pb.1, some (.function name params.2 pb.2))

/-- `parse_declaration`. -/
def parse_declaration : Nat → PState → PState × Option HAst
  | 0, p => (p, none)
  | f+1, p =>
    let ml := matchP f p .LET
    if ml.1 then parse_variable_declaration false f ml.2
    else
      let mc := matchP f p .CONST
      if mc.1 then parse_variable_declaration true f mc.2
      else
        let mf := matchP f p .FN
        if mf.1 then parse_function_declaration f mf.2
        else parse_statement f p

end

/-- `hyp_parser_create`: pair the parser with the lexer and prime it
with the first token. -/
def hyp_parser_create (lx : Lexer.LexState) (f : Nat) : PState :=
  advanceP f
    { lexer := lx, current := dummyToken, previous := dummyToken,
      had_error := false, panic_mode := false, diagnostics := [] }

/-- The declaration loop of `hyp_parser_parse`. -/
def parseLoop : Nat → PState → List HAst → PState × List HAst
  | 0, p, acc => (p, acc)
  | f+1, p, acc =>
    let me := matchP f p .EOF
    if me.1 then (me.2, acc)
    else
      let pd := parse_declaration f me.2
      let acc :=
        match pd.2 with
        | some d => acc ++ [d]
        | none => acc
      let p :=
        if pd.1.panic_mode then synchronize f pd.1 else pd.1
      parseLoop f p acc

/-- `hyp_parser_parse`: parse every declaration, synchronizing after
each panicked one; return NULL (none) if any error was raised, else
the program node. -/
def hyp_parser_parse (f : Nat) (p : PState) : PState × Option HAst :=
  let r := parseLoop f p []
  (r.1, if r.1.had_error then none else some (.program r.2))

end Parser6

/-! ## Concrete example inputs used by the theorems -/

namespace Runtime0

/-- The expression `5 / 0`. -/
def div_zero_expr : Ast :=
  .binary_op .BINOP_DIV (.number (.finite 5)) (.number (.finite 0))

/-- The two-statement program `5 / 0; let x = 1;`. -/
def div_zero_program : Ast :=
  .program [.expression_stmt div_zero_expr,
            .variable_decl "x" false (some (.number (.finite 1)))]

/-- The expression `false and (1 / 0)`: the left operand already
decides a logical `and`, the right operand raises a runtime error. -/
def and_div_expr : Ast :=
  .binary_op .BINOP_AND (.boolean false)
    (.binary_op .BINOP_DIV (.number (.finite 1)) (.number (.finite 0)))

/-- A session whose single (global) frame binds `i` to `0`. -/
def while_return_env : Runtime :=
  { heap := [{ parent := none, vars := [("i", .number (.finite 0))] }],
    global_env := 0, current_env := 0, funcs := [],
    has_error := false, error_message := "" }

/-- The statement `while (i < 3) { return 99; i = i + 1; }`. -/
def while_return_stmt : Ast :=
  .while_stmt (.binary_op .BINOP_LT (.identifier "i") (.number (.finite 3)))
    (.block_stmt
      [.return_stmt (some (.number (.finite 99))),
       .expression_stmt (.assignment .ASSIGN_SIMPLE (.identifier "i")
         (.binary_op .BINOP_ADD (.identifier "i") (.number (.finite 1))))])

/-- The statement `if (5 / 0) 1; else 1 = 2;`: the condition raises
the first error, the else branch reaches a second error site. -/
def if_overwrite_stmt : Ast :=
  .if_stmt div_zero_expr
    (.expression_stmt (.number (.finite 1)))
    (some (.expression_stmt
      (.assignment .ASSIGN_SIMPLE (.number (.finite 1))
        (.number (.finite 2)))))

/-- A fresh session whose error slot is already latched with the
division-by-zero message. -/
def error_set_state : Runtime :=
  { hyp_runtime_create with has_error := true,
                            error_message := "Division by zero" }

end Runtime0

/-! # Theorems -/

/-- C9: repeatedly calling `hyp_lexer_scan_token` on the source text
`let x = 1 + 2;` yields exactly the token sequence LET,
IDENTIFIER("x"), EQUAL, NUMBER(1), PLUS, NUMBER(2), SEMICOLON, EOF —
in that order and with no other tokens. -/
theorem C9_tokenize_let_statement :
    (Lexer.scanTokens 32 (Lexer.hyp_lexer_create "let x = 1 + 2;".data)).map
        (fun t => (t.type, t.text)) =
      [(.LET, "let"), (.IDENTIFIER, "x"), (.EQUAL, "="), (.NUMBER, "1"),
       (.PLUS, "+"), (.NUMBER, "2"), (.SEMICOLON, ";"), (.EOF, "")] := by
  decide

/-- C1 (counterexample): the operators do NOT short-circuit.
Evaluating `false and (1 / 0)` raises the right operand's
division-by-zero runtime error and returns Null, although the falsy
left operand already decides the result — the claim predicts no error
and result `false`. -/
theorem C1_short_circuit_counterexample :
    (Runtime0.hyp_runtime_eval_expression 10 Runtime0.hyp_runtime_create
        Runtime0.and_div_expr).1.has_error = true ∧
    (Runtime0.hyp_runtime_eval_expression 10 Runtime0.hyp_runtime_create
        Runtime0.and_div_expr).1.error_message = "Division by zero" ∧
    (Runtime0.hyp_runtime_eval_expression 10 Runtime0.hyp_runtime_create
        Runtime0.and_div_expr).2 = .vnull := by
  decide

/-- C4 (counterexample): the first recorded message does not always
win.  Evaluating the condition `5 / 0` alone latches "Division by
zero"; but evaluating an invalid assignment while the flag is already
set overwrites the message, and the one-statement program
`if (5 / 0) 1; else 1 = 2;` ends with "Invalid assignment target"
instead of the original "Division by zero". -/
theorem C4_error_message_overwritten_counterexample :
    (Runtime0.hyp_runtime_eval_expression 10 Runtime0.hyp_runtime_create
        Runtime0.div_zero_expr).1.has_error = true ∧
    (Runtime0.hyp_runtime_eval_expression 10 Runtime0.hyp_runtime_create
        Runtime0.div_zero_expr).1.error_message = "Division by zero" ∧
    Runtime0.error_set_state.has_error = true ∧
    (Runtime0.hyp_runtime_eval_expression 10 Runtime0.error_set_state
        (.assignment .ASSIGN_SIMPLE (.number (.finite 1))
          (.number (.finite 2)))).1.error_message =
      "Invalid assignment target" ∧
    (Runtime0.execute_statement 10 Runtime0.hyp_runtime_create
        Runtime0.if_overwrite_stmt).1.error_message =
      "Invalid assignment target" := by
  decide

set_option maxRecDepth 16384 in
/-- C3 (counterexample): an assignment whose left-hand side is not an
Identifier is NOT rejected by the parser.  Parsing `1 = 2;` raises no
parse error and no diagnostic, and `parse()` returns a program tree
whose assignment target is the Number literal `1`. -/
theorem C3_parser_accepts_literal_assignment_target :
    (Parser6.hyp_parser_parse 64
        (Parser6.hyp_parser_create
          (Lexer.hyp_lexer_create "1 = 2;".data) 64)).1.had_error = false ∧
    (Parser6.hyp_parser_parse 64
        (Parser6.hyp_parser_create
          (Lexer.hyp_lexer_create "1 = 2;".data) 64)).1.diagnostics = [] ∧
    Parser6.isLiteralTargetAssignmentProgram
      (Parser6.hyp_parser_parse 64
        (Parser6.hyp_parser_create
          (Lexer.hyp_lexer_create "1 = 2;".data) 64)).2 = true := by
  decide

/-- C5: executing `5 / 0; let x = 1;` latches the runtime error flag
with the "Division by zero" message; the division yields Null rather
than an IEEE infinity or NaN Number; the following statement never
runs (`x` is not defined in the global frame); and `execute_ast` maps
the latched flag to `HYP_ERROR_RUNTIME`. -/
theorem C5_division_by_zero_halts_program :
    (Runtime0.execute_statement 100 Runtime0.hyp_runtime_create
        Runtime0.div_zero_program).1.has_error = true ∧
    (Runtime0.execute_statement 100 Runtime0.hyp_runtime_create
        Runtime0.div_zero_program).1.error_message = "Division by zero" ∧
    (Runtime0.execute_statement 100 Runtime0.hyp_runtime_create
        Runtime0.div_zero_program).2 = .vnull ∧
    ((Runtime0.execute_statement 100 Runtime0.hyp_runtime_create
        Runtime0.div_zero_program).1.heap.get? 0).map
        (fun fr => Runtime0.varsLookup fr.vars "x") = some none ∧
    (Runtime0.hyp_runtime_execute_ast 100 Runtime0.hyp_runtime_create
        Runtime0.div_zero_program).2 = .HYP_ERROR_RUNTIME := by
  decide

/-- C2: the statement executor for `return` merely evaluates the
return-value expression (it is indistinguishable from an expression
statement at every fuel and state), the block/program statement loop
continues with the next statement whenever the error flag is clear
(there is no other abort signal), so a block's result is the value of
the last statement executed: the two-statement block
`{ return 99; 42; }` yields 42, and the loop
`while (i < 3) { return 99; i = i + 1; }` runs all three iterations,
ending with `i = 3` and result 3 instead of aborting with 99. -/
theorem C2_return_does_not_abort :
    (∀ f σ e, Runtime0.execute_statement f σ (.return_stmt (some e)) =
      Runtime0.execute_statement f σ (.expression_stmt e)) ∧
    (∀ f σ stmt rest r0,
      Runtime0.execSeq (f+1) σ (stmt :: rest) r0 =
        (if (Runtime0.execute_statement f σ stmt).1.has_error
         then Runtime0.execute_statement f σ stmt
         else Runtime0.execSeq f (Runtime0.execute_statement f σ stmt).1 rest
           (Runtime0.execute_statement f σ stmt).2)) ∧
    (Runtime0.execute_statement 10 Runtime0.hyp_runtime_create
        (.block_stmt [.return_stmt (some (.number (.finite 99))),
                      .expression_stmt (.number (.finite 42))])).2 =
      .number (.finite 42) ∧
    (Runtime0.execute_statement 100 Runtime0.while_return_env
        Runtime0.while_return_stmt).2 = .number (.finite 3) ∧
    (Runtime0.execute_statement 100 Runtime0.while_return_env
        Runtime0.while_return_stmt).1.has_error = false ∧
    ((Runtime0.execute_statement 100 Runtime0.while_return_env
        Runtime0.while_return_stmt).1.heap.get? 0).map
        (fun fr => Runtime0.varsLookup fr.vars "i") =
      some (some (.number (.finite 3))) := by
  refine ⟨?_, ?_, by decide, by decide, by decide, by decide⟩
  · intro f σ e
    cases f with
    | zero => rfl
    | succ f => rfl
  · intro f σ stmt rest r0
    rfl

/-- A string has positive length exactly when it is not the empty
string (bridges the C `length > 0` test and the claim's "empty"). -/
theorem decide_length_pos_eq_bne_empty (s : String) :
    (decide (0 < s.length)) = (s != "") := by
  rcases s with ⟨l⟩
  cases l with
  | nil => rfl
  | cons c cs => simp [String.length, String.ext_iff]

/-- C8: truthiness in both runtime variants: Null is false; a Boolean
is its own value; a Number is false exactly when it is zero or NaN (a
finite fraction with positive denominator is zero exactly when its
numerator is); a String is false exactly when it is empty; and every
Array, Object, Function and NativeFunction is true. -/
theorem C8_truthiness_semantics :
    (RuntimeC.hyp_value_is_truthy .vnull = false) ∧
    (∀ b, RuntimeC.hyp_value_is_truthy (.boolean b) = b) ∧
    (∀ q : Frac,
      RuntimeC.hyp_value_is_truthy (.number (.finite q)) = (q.num != 0)) ∧
    (RuntimeC.hyp_value_is_truthy (.number .nan) = false) ∧
    (∀ i s, RuntimeC.hyp_value_is_truthy (.string (some ⟨i, s⟩)) = (s != "")) ∧
    (∀ r, RuntimeC.hyp_value_is_truthy (.array r) = true) ∧
    (∀ r, RuntimeC.hyp_value_is_truthy (.object r) = true) ∧
    (∀ r, RuntimeC.hyp_value_is_truthy (.function r) = true) ∧
    (∀ r, RuntimeC.hyp_value_is_truthy (.native_function r) = true) ∧
    (Runtime0.hyp_value_is_truthy .vnull = false) ∧
    (∀ b, Runtime0.hyp_value_is_truthy (.boolean b) = b) ∧
    (∀ q : Frac,
      Runtime0.hyp_value_is_truthy (.number (.finite q)) = (q.num != 0)) ∧
    (Runtime0.hyp_value_is_truthy (.number .nan) = false) ∧
    (∀ s : String,
      Runtime0.hyp_value_is_truthy (.string (some s)) = (s != "")) ∧
    (∀ e c, Runtime0.hyp_value_is_truthy (.array e c) = true) ∧
    (∀ r c, Runtime0.hyp_value_is_truthy (.object r c) = true) ∧
    (∀ r, Runtime0.hyp_value_is_truthy (.function r) = true) ∧
    (∀ n, Runtime0.hyp_value_is_truthy (.native_function n) = true) := by
  refine ⟨rfl, fun b => rfl, fun q => rfl, rfl, ?_, fun r => rfl, fun r => rfl,
    fun r => rfl, fun r => rfl, rfl, fun b => rfl, fun q => rfl, rfl, ?_,
    fun e c => rfl, fun r c => rfl, fun r => rfl, fun n => rfl⟩
  · intro i s
    simpa [RuntimeC.hyp_value_is_truthy] using decide_length_pos_eq_bne_empty s
  · intro s
    simpa [Runtime0.hyp_value_is_truthy] using decide_length_pos_eq_bne_empty s

/-- C7: equality semantics of `hyp_value_equals`: values with
different tags are unequal; Null equals Null; Booleans and Numbers
compare by value — in particular the texts `1` and `1.0` both parse
to the Number one and compare equal; Strings held by distinct
allocations compare by character content; Arrays, Objects and
Functions compare by reference identity of the backing allocation and
never by structural content — two distinct empty arrays are unequal. -/
theorem C7_equality_semantics :
    (∀ a b, RuntimeC.typeOf a ≠ RuntimeC.typeOf b →
      RuntimeC.hyp_value_equals a b = false) ∧
    (RuntimeC.hyp_value_equals .vnull .vnull = true) ∧
    (∀ x y, RuntimeC.hyp_value_equals (.boolean x) (.boolean y) = (x == y)) ∧
    (∀ x y, RuntimeC.hyp_value_equals (.number x) (.number y) =
      HypNum.ieeeEq x y) ∧
    (HypNum.ieeeEq (Parser6.strtod "1") (Parser6.strtod "1.0") = true ∧
     RuntimeC.hyp_value_equals (.number (Parser6.strtod "1"))
       (.number (Parser6.strtod "1.0")) = true) ∧
    (∀ i1 s1 i2 s2, i1 ≠ i2 →
      RuntimeC.hyp_value_equals (.string (some ⟨i1, s1⟩))
        (.string (some ⟨i2, s2⟩)) = (s1 == s2)) ∧
    (∀ x y, RuntimeC.hyp_value_equals (.array x) (.array y) = (x == y)) ∧
    (∀ x y, RuntimeC.hyp_value_equals (.object x) (.object y) = (x == y)) ∧
    (∀ x y, RuntimeC.hyp_value_equals (.function x) (.function y) =
      (x == y)) ∧
    (RuntimeC.hyp_value_equals (.array 0) (.array 1) = false) := by
  refine ⟨?_, rfl, fun x y => rfl, fun x y => rfl, ⟨by decide, by decide⟩,
    ?_, fun x y => rfl, fun x y => rfl, fun x y => rfl, by decide⟩
  · intro a b h
    have hb : (RuntimeC.typeOf a != RuntimeC.typeOf b) = true := by
      simpa [bne_iff_ne] using h
    simp [RuntimeC.hyp_value_equals, hb]
  · intro i1 s1 i2 s2 h
    have hb : (i1 == i2) = false := by
      simpa [beq_eq_false_iff_ne] using h
    simp [RuntimeC.hyp_value_equals, RuntimeC.typeOf, hb]

/-- Witness for C7: concrete instances discharging the hypotheses —
a Null and a Boolean have different tags and compare unequal, and two
distinct string allocations with contents "ab" and "ab" compare by
content (equal). -/
theorem C7_equality_semantics_witness :
    RuntimeC.typeOf .vnull ≠ RuntimeC.typeOf (.boolean true) ∧
    RuntimeC.hyp_value_equals .vnull (.boolean true) = false ∧
    RuntimeC.hyp_value_equals (.string (some ⟨0, "ab"⟩))
      (.string (some ⟨1, "ab"⟩)) = ("ab" == "ab") :=
  ⟨by decide,
   C7_equality_semantics.1 .vnull (.boolean true) (by decide),
   C7_equality_semantics.2.2.2.2.2.1 0 "ab" 1 "ab" (by decide)⟩

/-- C10: in the `hyp_runtime.c` runtime variant, a binding whose
stored value is Null is indistinguishable from an absent binding:
lookup falls through to the parent whenever the current frame's
stored value is Null, assignment treats such a binding as
nonexistent and walks to the parent, and concretely an inner frame
binding `x` to Null is skipped in favour of the outer frame's
binding both when reading and when assigning. -/
theorem C10_null_binding_falls_through :
    (∀ vars p ps name,
      RuntimeC.hyp_object_get vars name = .vnull →
      RuntimeC.hyp_environment_get (vars :: p :: ps) name =
        RuntimeC.hyp_environment_get (p :: ps) name) ∧
    (∀ vars p ps name value,
      RuntimeC.hyp_object_get vars name = .vnull →
      RuntimeC.hyp_environment_assign (vars :: p :: ps) name value =
        ((RuntimeC.hyp_environment_assign (p :: ps) name value).1,
         vars :: (RuntimeC.hyp_environment_assign (p :: ps) name value).2)) ∧
    (RuntimeC.hyp_environment_get
        [[("x", .vnull)], [("x", .number (.finite 1))]] "x" =
      .number (.finite 1)) ∧
    (RuntimeC.hyp_environment_assign
        [[("x", .vnull)], [("x", .number (.finite 1))]] "x"
        (.number (.finite 2)) =
      (.HYP_OK, [[("x", .vnull)], [("x", .number (.finite 2))]])) := by
  refine ⟨?_, ?_, by decide, by decide⟩
  · intro vars p ps name h
    simp [RuntimeC.hyp_environment_get, h]
  · intro vars p ps name value h
    simp [RuntimeC.hyp_environment_assign, h]

/-- Witness for C10: the fall-through equations applied to the
concrete two-frame chain where the inner frame stores Null for `x`. -/
theorem C10_null_binding_falls_through_witness :
    RuntimeC.hyp_object_get [("x", .vnull)] "x" = .vnull ∧
    RuntimeC.hyp_environment_get
        [[("x", .vnull)], [("x", .number (.finite 1))]] "x" =
      RuntimeC.hyp_environment_get [[("x", .number (.finite 1))]] "x" ∧
    RuntimeC.hyp_environment_assign
        [[("x", .vnull)], [("x", .number (.finite 1))]] "x" (.boolean true) =
      ((RuntimeC.hyp_environment_assign [[("x", .number (.finite 1))]] "x"
          (.boolean true)).1,
       [("x", .vnull)] ::
         (RuntimeC.hyp_environment_assign [[("x", .number (.finite 1))]] "x"
           (.boolean true)).2) :=
  ⟨by decide,
   C10_null_binding_falls_through.1 [("x", .vnull)]
     [("x", .number (.finite 1))] [] "x" (by decide),
   C10_null_binding_falls_through.2.1 [("x", .vnull)]
     [("x", .number (.finite 1))] [] "x" (.boolean true) (by decide)⟩

/-- C3 (amended): a non-Identifier assignment target is accepted by
the parser and instead rejected at runtime: for every fuel, state and
assignment node whose target is not an Identifier, evaluation sets
the runtime error "Invalid assignment target" (without evaluating the
right-hand side) and returns Null. -/
theorem C3_invalid_target_is_runtime_error :
    ∀ f σ op target value, Runtime0.isIdentifier target = false →
      Runtime0.hyp_runtime_eval_expression (f+1) σ
        (.assignment op target value) =
      (Runtime0.setError σ "Invalid assignment target", .vnull) := by
  intro f σ op target value h
  cases target <;> first
    | rfl
    | simp [Runtime0.isIdentifier] at h

/-- Witness for C3 (amended): evaluating `1 = 2` sets the runtime
error "Invalid assignment target". -/
theorem C3_invalid_target_is_runtime_error_witness :
    Runtime0.isIdentifier (.number (.finite 1)) = false ∧
    Runtime0.hyp_runtime_eval_expression 1 Runtime0.hyp_runtime_create
        (.assignment .ASSIGN_SIMPLE (.number (.finite 1))
          (.number (.finite 2))) =
      (Runtime0.setError Runtime0.hyp_runtime_create
        "Invalid assignment target", .vnull) :=
  ⟨by decide,
   C3_invalid_target_is_runtime_error 0 Runtime0.hyp_runtime_create
     .ASSIGN_SIMPLE (.number (.finite 1)) (.number (.finite 2)) (by decide)⟩

/-- C1 (amended): `and`/`or` evaluate BOTH operands eagerly (so a
runtime error in the right operand occurs even when the left side
decides the result — see the counterexample); when both operand
evaluations succeed, the result is the operand value itself,
unconverted to boolean: `and` yields the left value if it is falsy
and the right value otherwise, `or` yields the left value if it is
truthy and the right value otherwise, in the state left by the
right-operand evaluation. -/
theorem C1_logical_ops_eager_with_operand_result :
    ∀ f σ l r σ1 lv σ2 rv,
      Runtime0.hyp_runtime_eval_expression f σ l = (σ1, lv) →
      σ1.has_error = false →
      Runtime0.hyp_runtime_eval_expression f σ1 r = (σ2, rv) →
      σ2.has_error = false →
      Runtime0.evaluate_binary (f+1) σ .BINOP_AND l r =
        (σ2, if Runtime0.hyp_value_is_truthy lv then rv else lv) ∧
      Runtime0.evaluate_binary (f+1) σ .BINOP_OR l r =
        (σ2, if Runtime0.hyp_value_is_truthy lv then lv else rv) := by
  intro f σ l r σ1 lv σ2 rv h1 e1 h2 e2
  constructor
  · have hstep : Runtime0.evaluate_binary (f+1) σ .BINOP_AND l r =
        (if !Runtime0.hyp_value_is_truthy lv then (σ2, lv) else (σ2, rv)) := by
      simp [Runtime0.evaluate_binary, h1, e1, h2, e2]
    rw [hstep]
    cases hb : Runtime0.hyp_value_is_truthy lv <;> simp
  · have hstep : Runtime0.evaluate_binary (f+1) σ .BINOP_OR l r =
        (if Runtime0.hyp_value_is_truthy lv then (σ2, lv) else (σ2, rv)) := by
      simp [Runtime0.evaluate_binary, h1, e1, h2, e2]
    rw [hstep]
    cases hb : Runtime0.hyp_value_is_truthy lv <;> simp

/-- Witness for C1 (amended): `true and 5` yields the Number 5 and
`true or 5` yields the Boolean true, both unconverted. -/
theorem C1_logical_ops_eager_witness :
    Runtime0.evaluate_binary 2 Runtime0.hyp_runtime_create .BINOP_AND
        (.boolean true) (.number (.finite 5)) =
      (Runtime0.hyp_runtime_create, .number (.finite 5)) ∧
    Runtime0.evaluate_binary 2 Runtime0.hyp_runtime_create .BINOP_OR
        (.boolean true) (.number (.finite 5)) =
      (Runtime0.hyp_runtime_create, .boolean true) := by
  have h := C1_logical_ops_eager_with_operand_result 1
    Runtime0.hyp_runtime_create (.boolean true) (.number (.finite 5))
    Runtime0.hyp_runtime_create (.boolean true)
    Runtime0.hyp_runtime_create (.number (.finite 5)) rfl rfl rfl rfl
  exact ⟨by simpa using h.1, by simpa using h.2⟩

/-- Binding parameters never changes the current-environment pointer. -/
theorem bindParams_current_env (ps : List (String × Runtime0.Value))
    (σ : Runtime0.Runtime) :
    (Runtime0.bindParams σ ps).current_env = σ.current_env := by
  induction ps generalizing σ with
  | nil => rfl
  | cons p rest ih =>
    have := ih { σ with
      heap := Runtime0.hyp_environment_define σ.heap σ.current_env p.1 p.2 }
    simpa [Runtime0.bindParams, List.foldl_cons] using this

/-- Defining a name absent from a frame appends the new variable. -/
theorem varsDefine_of_not_mem {k : String} {v : Runtime0.Value} :
    ∀ (acc : List (String × Runtime0.Value)), (∀ q ∈ acc, q.1 ≠ k) →
      Runtime0.varsDefine acc k v = acc ++ [(k, v)] := by
  intro acc
  induction acc with
  | nil => intro _; rfl
  | cons q rest ih =>
    intro h
    obtain ⟨k1, v1⟩ := q
    have hq : k1 ≠ k := h (k1, v1) (by simp)
    simp only [Runtime0.varsDefine, if_neg hq, List.cons_append,
      List.cons.injEq, true_and]
    exact ih (fun r hr => h r (by simp [hr]))

/-- Folding definitions of pairwise-distinct fresh names over a frame
appends them in order. -/
theorem foldl_varsDefine_nodup :
    ∀ (ps acc : List (String × Runtime0.Value)),
      ((acc ++ ps).map Prod.fst).Nodup →
      ps.foldl (fun a p => Runtime0.varsDefine a p.1 p.2) acc = acc ++ ps := by
  intro ps
  induction ps with
  | nil => intro acc _; simp
  | cons p rest ih =>
    intro acc h
    have hkey : ∀ q ∈ acc, q.1 ≠ p.1 := by
      intro q hq hqe
      have hmem1 : q.1 ∈ acc.map Prod.fst := List.mem_map.mpr ⟨q, hq, rfl⟩
      have hdisj := (List.nodup_append.mp (by simpa using h)).2.2
      exact hdisj hmem1 (by rw [hqe]; simp)
    rw [List.foldl_cons]
    have hstep : Runtime0.varsDefine acc p.1 p.2 = acc ++ [p] := by
      simpa using varsDefine_of_not_mem acc hkey
    rw [hstep]
    have := ih (acc ++ [p]) (by simpa using h)
    simpa [List.append_assoc] using this

/-- The keys of `zip params args` form a sublist of `params`. -/
theorem map_fst_zip_sublist :
    ∀ (l1 : List String) (l2 : List Runtime0.Value),
      ((l1.zip l2).map Prod.fst).Sublist l1 := by
  intro l1
  induction l1 with
  | nil => intro l2; simp
  | cons a as ih =>
    intro l2
    cases l2 with
    | nil => simp
    | cons b bs => simpa using List.Sublist.cons₂ a (ih bs)

/-- With pairwise-distinct parameter names, the call frame's variable
list is exactly the positional zip of parameters with arguments. -/
theorem paramVars_eq_zip (params : List String)
    (args : List Runtime0.Value) (h : params.Nodup) :
    Runtime0.paramVars params args = params.zip args := by
  have hnd : ((params.zip args).map Prod.fst).Nodup :=
    (map_fst_zip_sublist params args).nodup h
  simpa [Runtime0.paramVars] using
    foldl_varsDefine_nodup (params.zip args) [] (by simpa using hnd)

/-- Looking up a name none of the frame's variables carry yields
nothing. -/
theorem varsLookup_eq_none :
    ∀ (vs : List (String × Runtime0.Value)) (name : String),
      (∀ pr ∈ vs, pr.1 ≠ name) → Runtime0.varsLookup vs name = none := by
  intro vs name
  induction vs with
  | nil => intro _; rfl
  | cons q rest ih =>
    intro h
    obtain ⟨k1, v1⟩ := q
    have hq : k1 ≠ name := h (k1, v1) (by simp)
    simp only [Runtime0.varsLookup, if_neg hq]
    exact ih (fun r hr => h r (by simp [hr]))

/-- Every key present after a define was the defined key or already a
key of the frame. -/
theorem varsDefine_key_mem :
    ∀ (acc : List (String × Runtime0.Value)) (k : String)
      (v : Runtime0.Value) (pr : String × Runtime0.Value),
      pr ∈ Runtime0.varsDefine acc k v →
      pr.1 = k ∨ ∃ q ∈ acc, pr.1 = q.1 := by
  intro acc k v
  induction acc with
  | nil =>
    intro pr hpr
    simp only [Runtime0.varsDefine, List.mem_singleton] at hpr
    exact Or.inl (by simp [hpr])
  | cons q rest ih =>
    intro pr hpr
    obtain ⟨k1, v1⟩ := q
    by_cases hk : k1 = k
    · simp only [Runtime0.varsDefine, if_pos hk] at hpr
      rcases List.mem_cons.mp hpr with h1 | h2
      · exact Or.inl (by simp [h1, hk])
      · exact Or.inr ⟨pr, by simp [h2], rfl⟩
    · simp only [Runtime0.varsDefine, if_neg hk] at hpr
      rcases List.mem_cons.mp hpr with h1 | h2
      · exact Or.inr ⟨(k1, v1), by simp, by simp [h1]⟩
      · rcases ih pr h2 with h3 | ⟨q2, hq2, hq2e⟩
        · exact Or.inl h3
        · exact Or.inr ⟨q2, by simp [hq2], hq2e⟩

/-- Binding parameters whose names all differ from `name` leaves
`name` unbound in the frame being filled. -/
theorem foldl_varsDefine_lookup_none :
    ∀ (ps acc : List (String × Runtime0.Value)) (name : String),
      (∀ pr ∈ ps, pr.1 ≠ name) → (∀ pr ∈ acc, pr.1 ≠ name) →
      Runtime0.varsLookup
        (ps.foldl (fun a p => Runtime0.varsDefine a p.1 p.2) acc) name =
        none := by
  intro ps
  induction ps with
  | nil => intro acc name _ hacc; exact varsLookup_eq_none acc name hacc
  | cons p rest ih =>
    intro acc name hps hacc
    rw [List.foldl_cons]
    apply ih
    · intro pr hpr; exact hps pr (by simp [hpr])
    · intro pr hpr
      rcases varsDefine_key_mem acc p.1 p.2 pr hpr with h1 | ⟨q, hq, hqe⟩
      · rw [h1]; exact hps p (by simp)
      · rw [hqe]; exact hacc q hq

/-- Binding parameters rewrites exactly the frame the current
environment points at, folding the definitions into its variables. -/
theorem bindParams_frame :
    ∀ (ps : List (String × Runtime0.Value)) (σ : Runtime0.Runtime)
      (par : Option Nat) (vs : List (String × Runtime0.Value)),
      σ.heap.get? σ.current_env = some { parent := par, vars := vs } →
      (Runtime0.bindParams σ ps).heap.get? σ.current_env =
        some { parent := par,
               vars := ps.foldl (fun a p => Runtime0.varsDefine a p.1 p.2) vs } := by
  intro ps
  induction ps with
  | nil => intro σ par vs h; simpa [Runtime0.bindParams] using h
  | cons p rest ih =>
    intro σ par vs h
    have hlt : σ.current_env < σ.heap.length := by
      by_contra hge
      rw [List.get?_len_le (Nat.le_of_not_lt hge)] at h
      exact Option.noConfusion h
    have hdef : (Runtime0.hyp_environment_define σ.heap σ.current_env p.1
        p.2).get? σ.current_env =
        some { parent := par, vars := Runtime0.varsDefine vs p.1 p.2 } := by
      simp only [Runtime0.hyp_environment_define, h]
      exact List.get?_set_eq_of_lt _ hlt
    have := ih { σ with
        heap := Runtime0.hyp_environment_define σ.heap σ.current_env p.1 p.2 }
      par (Runtime0.varsDefine vs p.1 p.2) hdef
    simpa [Runtime0.bindParams, List.foldl_cons] using this

/-- The body of a called function starts executing with the fresh
frame as current environment. -/
theorem callEntryState_current_env (σ : Runtime0.Runtime)
    (fn : Runtime0.hyp_function) (args : List Runtime0.Value) :
    (Runtime0.callEntryState σ fn args).current_env = σ.heap.length := by
  simpa [Runtime0.callEntryState, Runtime0.hyp_environment_create] using
    bindParams_current_env (fn.parameters.zip args)
      { σ with heap := σ.heap ++ [{ parent := some fn.closure, vars := [] }],
               current_env := σ.heap.length }

/-- The fresh call frame has the function's closure as parent and the
parameter bindings as variables. -/
theorem callEntryState_frame (σ : Runtime0.Runtime)
    (fn : Runtime0.hyp_function) (args : List Runtime0.Value) :
    (Runtime0.callEntryState σ fn args).heap.get? σ.heap.length =
      some { parent := some fn.closure,
             vars := Runtime0.paramVars fn.parameters args } := by
  have hbase : (σ.heap ++
      [({ parent := some fn.closure, vars := [] } : Runtime0.Frame)]).get?
      σ.heap.length =
      some { parent := some fn.closure, vars := [] } :=
    List.get?_concat_length σ.heap _
  simpa [Runtime0.callEntryState, Runtime0.hyp_environment_create,
    Runtime0.paramVars] using
    bindParams_frame (fn.parameters.zip args)
      { σ with heap := σ.heap ++ [{ parent := some fn.closure, vars := [] }],
               current_env := σ.heap.length }
      (some fn.closure) [] hbase

/-- A name bound nowhere along the chain reads as Null. -/
theorem envGet_of_not_chainHasName :
    ∀ (f : Nat) (heap : List Runtime0.Frame) (idx : Nat) (name : String),
      Runtime0.chainHasName f heap idx name = false →
      Runtime0.hyp_environment_get f heap idx name = .vnull := by
  intro f
  induction f with
  | zero => intro heap idx name _; rfl
  | succ f ih =>
    intro heap idx name h
    simp only [Runtime0.chainHasName] at h
    simp only [Runtime0.hyp_environment_get]
    cases hh : heap.get? idx with
    | none => rfl
    | some fr =>
      obtain ⟨par, vars⟩ := fr
      rw [hh] at h
      dsimp only at h ⊢
      rcases Bool.or_eq_false_iff.mp h with ⟨h1, h2⟩
      have h1n : Runtime0.varsLookup vars name = none :=
        Option.not_isSome_iff_eq_none.mp (by simp [h1])
      rw [h1n]
      dsimp only
      cases par with
      | none => rfl
      | some p2 => exact ih heap p2 name (by simpa using h2)

/-- C6: calling a user-defined Function (1) executes its body in a
fresh Environment whose parent is the function's closure Environment
(captured at declaration, not the caller's current environment) and
whose variables are the positional parameter bindings; (2) with
pairwise-distinct parameter names those bindings are exactly
`parameters.zip args` — extra arguments are dropped by the zip and a
parameter beyond the argument count stays unbound in the call frame;
(3) a name bound nowhere along an environment chain looks up as Null;
and (4) after the body finishes — normally or with the error flag
set, since the restore is unconditional — the caller's
current-Environment pointer is restored to its pre-call value. -/
theorem C6_call_function_scoping :
    (∀ f σ fn (args : List Runtime0.Value),
      (Runtime0.hyp_runtime_call_function f σ fn args).1.current_env =
        σ.current_env) ∧
    (∀ f σ fn (args : List Runtime0.Value),
      Runtime0.hyp_runtime_call_function (f+1) σ fn args =
        ({ (Runtime0.execute_statement f (Runtime0.callEntryState σ fn args)
              fn.body).1 with current_env := σ.current_env },
         (Runtime0.execute_statement f (Runtime0.callEntryState σ fn args)
            fn.body).2)) ∧
    (∀ σ fn (args : List Runtime0.Value),
      (Runtime0.callEntryState σ fn args).current_env = σ.heap.length) ∧
    (∀ σ fn (args : List Runtime0.Value),
      (Runtime0.callEntryState σ fn args).heap.get? σ.heap.length =
        some { parent := some fn.closure,
               vars := Runtime0.paramVars fn.parameters args }) ∧
    (∀ (params : List String) (args : List Runtime0.Value), params.Nodup →
      Runtime0.paramVars params args = params.zip args) ∧
    (∀ (params : List String) (args : List Runtime0.Value) (name : String),
      (∀ pr ∈ params.zip args, pr.1 ≠ name) →
      Runtime0.varsLookup (Runtime0.paramVars params args) name = none) ∧
    (∀ f heap idx name, Runtime0.chainHasName f heap idx name = false →
      Runtime0.hyp_environment_get f heap idx name = .vnull) := by
  refine ⟨?_, fun f σ fn args => rfl, callEntryState_current_env,
    callEntryState_frame, paramVars_eq_zip, ?_, envGet_of_not_chainHasName⟩
  · intro f σ fn args
    cases f with
    | zero => rfl
    | succ f => rfl
  · intro params args name h
    exact foldl_varsDefine_lookup_none (params.zip args) [] name h
      (by intro pr hpr; cases hpr)

/-- Witness for C6: calling `fn g(a, b)` with the single argument 7
binds `a` to 7, leaves `b` unbound, and restores the caller's
current environment — and an unbound name reads as Null. -/
theorem C6_call_function_scoping_witness :
    List.Nodup ["a", "b"] ∧
    Runtime0.paramVars ["a", "b"] [.number (.finite 7)] =
      [("a", .number (.finite 7))] ∧
    Runtime0.varsLookup
      (Runtime0.paramVars ["a", "b"] [.number (.finite 7)]) "b" = none ∧
    Runtime0.chainHasName 4 Runtime0.hyp_runtime_create.heap 0 "q" = false ∧
    Runtime0.hyp_environment_get 4 Runtime0.hyp_runtime_create.heap 0 "q" =
      .vnull ∧
    (Runtime0.hyp_runtime_call_function 20 Runtime0.hyp_runtime_create
        { name := "g", parameters := ["a", "b"],
          body := .return_stmt (some (.identifier "a")), closure := 0 }
        [.number (.finite 7)]).1.current_env =
      Runtime0.hyp_runtime_create.current_env := by
  refine ⟨by decide, ?_, ?_, by decide, ?_, ?_⟩
  · have h := C6_call_function_scoping.2.2.2.2.1 ["a", "b"]
      [.number (.finite 7)] (by decide)
    simpa using h
  · exact C6_call_function_scoping.2.2.2.2.2.1 ["a", "b"]
      [.number (.finite 7)] "b" (by decide)
  · exact C6_call_function_scoping.2.2.2.2.2.2 4
      Runtime0.hyp_runtime_create.heap 0 "q" (by decide)
  · exact C6_call_function_scoping.1 20 Runtime0.hyp_runtime_create
      { name := "g", parameters := ["a", "b"],
        body := .return_stmt (some (.identifier "a")), closure := 0 }
      [.number (.finite 7)]

/-- Binding parameters never touches the error slot. -/
theorem bindParams_has_error (ps : List (String × Runtime0.Value))
    (σ : Runtime0.Runtime) :
    (Runtime0.bindParams σ ps).has_error = σ.has_error := by
  induction ps generalizing σ with
  | nil => rfl
  | cons p rest ih =>
    have := ih { σ with
      heap := Runtime0.hyp_environment_define σ.heap σ.current_env p.1 p.2 }
    simpa [Runtime0.bindParams, List.foldl_cons] using this

/-- The built-in native functions never clear a latched error flag. -/
theorem callNative_error_mono (name : String) (σ : Runtime0.Runtime)
    (args : List Runtime0.Value) (h : σ.has_error = true) :
    (Runtime0.callNative name σ args).1.has_error = true := by
  unfold Runtime0.callNative
  split
  · exact h
  · unfold Runtime0.builtin_typeof
    split
    · rfl
    · exact h
  · unfold Runtime0.builtin_len
    split
    · rfl
    · split
      · exact h
      · exact h
      · exact h
      · rfl
  · exact h

/-- Once the error flag is set, no step of the evaluator clears it:
simultaneous induction over the whole mutually recursive cluster. -/
theorem error_flag_mono_all :
    ∀ f,
      (∀ σ node, σ.has_error = true →
        (Runtime0.hyp_runtime_eval_expression f σ node).1.has_error = true) ∧
      (∀ σ op l r, σ.has_error = true →
        (Runtime0.evaluate_binary f σ op l r).1.has_error = true) ∧
      (∀ σ node, σ.has_error = true →
        (Runtime0.execute_statement f σ node).1.has_error = true) ∧
      (∀ σ stmts res, σ.has_error = true →
        (Runtime0.execSeq f σ stmts res).1.has_error = true) ∧
      (∀ σ c b res, σ.has_error = true →
        (Runtime0.execWhile f σ c b res).1.has_error = true) ∧
      (∀ σ args, σ.has_error = true →
        (Runtime0.evalArgs f σ args).1.has_error = true) ∧
      (∀ σ fn args, σ.has_error = true →
        (Runtime0.hyp_runtime_call_function f σ fn args).1.has_error = true) := by
  intro f
  induction f with
  | zero =>
    exact ⟨fun σ node h => h, fun σ op l r h => h, fun σ node h => h,
      fun σ stmts res h => h, fun σ c b res h => h, fun σ args h => h,
      fun σ fn args h => h⟩
  | succ f ih =>
    obtain ⟨ihE, ihB, ihS, ihSeq, ihW, ihA, ihC⟩ := ih
    have hEval : ∀ σ node, σ.has_error = true →
        (Runtime0.hyp_runtime_eval_expression (f+1) σ node).1.has_error =
          true := by
      intro σ node h
      cases node with
      | number v => exact h
      | string v => exact h
      | boolean v => exact h
      | nullLit => exact h
      | identifier name => exact h
      | binary_op op l r => exact ihB σ op l r h
      | assignment op target value =>
        cases target <;> first | exact ihE σ value h | rfl
      | unary_op op operand => rfl
      | call callee arguments => rfl
      | expression_stmt e => rfl
      | variable_decl n c i => rfl
      | function_decl n p b => rfl
      | if_stmt c t e => rfl
      | while_stmt c b => rfl
      | return_stmt v => rfl
      | block_stmt s => rfl
      | program s => rfl
    have hBin : ∀ σ op l r, σ.has_error = true →
        (Runtime0.evaluate_binary (f+1) σ op l r).1.has_error = true := by
      intro σ op l r h
      have h1 := ihE σ l h
      simp only [Runtime0.evaluate_binary, h1, if_true]
    refine ⟨hEval, hBin, ?_, ?_, ?_, ?_, ?_⟩
    · intro σ node h
      cases node with
      | program stmts => exact ihSeq σ stmts _ h
      | function_decl name params body => exact h
      | call callee arguments =>
        cases callee with
        | identifier cname =>
          simp only [Runtime0.execute_statement]
          cases hget : Runtime0.hyp_environment_get σ.heap.length σ.heap
            σ.global_env cname with
          | vnull => rfl
          | boolean b => rfl
          | number n => rfl
          | string s => rfl
          | array e c => rfl
          | object r c => rfl
          | native_function nname =>
            exact callNative_error_mono nname _ _ (ihA σ arguments h)
          | function fref =>
            dsimp only
            cases hfn : (Runtime0.evalArgs f σ arguments).1.funcs.get? fref with
            | some fn => exact ihC _ fn _ (ihA σ arguments h)
            | none => exact ihA σ arguments h
        | nullLit => rfl
        | number v => rfl
        | string v => rfl
        | boolean v => rfl
        | binary_op op l r => rfl
        | unary_op op operand => rfl
        | assignment op t v => rfl
        | call c a => rfl
        | expression_stmt e => rfl
        | variable_decl n c i => rfl
        | function_decl n p b => rfl
        | if_stmt c t e => rfl
        | while_stmt c b => rfl
        | return_stmt v => rfl
        | block_stmt s => rfl
        | program s => rfl
      | variable_decl name c initializer =>
        cases initializer with
        | some ini => exact ihE σ ini h
        | none => exact h
      | if_stmt condition then_stmt else_stmt =>
        have h1 := ihE σ condition h
        simp only [Runtime0.execute_statement]
        split
        · exact ihS _ then_stmt h1
        · cases else_stmt with
          | some e => exact ihS _ e h1
          | none => exact h1
      | while_stmt c b => exact ihW σ c b _ h
      | return_stmt value =>
        cases value with
        | some e => exact ihE σ e h
        | none => exact h
      | block_stmt stmts => exact ihSeq σ stmts _ h
      | expression_stmt e => exact ihE σ e h
      | number v => exact ihE σ _ h
      | string v => exact ihE σ _ h
      | boolean v => exact ihE σ _ h
      | nullLit => exact ihE σ _ h
      | identifier name => exact ihE σ _ h
      | binary_op op l r => exact ihE σ _ h
      | unary_op op operand => exact ihE σ _ h
      | assignment op t v => exact ihE σ _ h
    · intro σ stmts res h
      cases stmts with
      | nil => exact h
      | cons s rest =>
        have h1 := ihS σ s h
        simp only [Runtime0.execSeq, h1, if_true]
    · intro σ c b res h
      have h1 := ihE σ c h
      simp only [Runtime0.execWhile]
      split
      · exact h1
      · have h2 := ihS _ b h1
        split
        all_goals first | exact h2 | exact ihW _ c b _ h2
    · intro σ args h
      cases args with
      | nil => exact h
      | cons a rest => exact ihA _ rest (ihE σ a h)
    · intro σ fn args h
      have hentry : (Runtime0.callEntryState σ fn args).has_error = true := by
        simp only [Runtime0.callEntryState]
        rw [bindParams_has_error]
        exact h
      exact ihS (Runtime0.callEntryState σ fn args) fn.body hentry

/-- C4 (amended): the error flag, once set, stays set for the rest of
the execution — every statement executor and expression evaluator
preserves a latched flag at every fuel.  (The MESSAGE, by contrast,
can be overwritten by a later error site — see the counterexample —
so "first cause wins" holds for the flag but not for the message.) -/
theorem C4_error_flag_monotone :
    ∀ f σ node, σ.has_error = true →
      (Runtime0.execute_statement f σ node).1.has_error = true ∧
      (Runtime0.hyp_runtime_eval_expression f σ node).1.has_error = true := by
  intro f σ node h
  exact ⟨(error_flag_mono_all f).2.2.1 σ node h,
         (error_flag_mono_all f).1 σ node h⟩

/-- Witness for C4 (amended): a state with the flag latched keeps it
latched across a further statement execution and evaluation. -/
theorem C4_error_flag_monotone_witness :
    Runtime0.error_set_state.has_error = true ∧
    (Runtime0.execute_statement 3 Runtime0.error_set_state
      .nullLit).1.has_error = true ∧
    (Runtime0.hyp_runtime_eval_expression 3 Runtime0.error_set_state
      .nullLit).1.has_error = true := by
  have h := C4_error_flag_monotone 3 Runtime0.error_set_state .nullLit
    (by decide)
  exact ⟨by decide, h.1, h.2⟩

end Hyper
